import Mathlib

/-!
# libtorrent `sliding_average` (include/libtorrent/sliding_average.hpp)

A shallow embedding of the class template `sliding_average<Int, inverted_gain>`:
an exponential moving average accumulator over integer samples, kept in
fixed point (scaled by 64).

Conventions of the embedding

* The three data members become the fields of a structure; every member
  function becomes a function on that structure, the template argument
  `inverted_gain` becomes an explicit first argument.
* Integer values are mathematical integers (`Int`).  Where the width of the
  machine type matters it is made explicit through `wrap w`, the reduction
  modulo `2 ^ w` into the signed range.
* The C++ operator `/` on integers truncates toward zero, which is `Int.tdiv`.
  It is not the floor division written `/` on `Int`.
* `std::abs` is `c_abs`.
* The functions `add_sample`, `mean`, `avg_deviation` compute over the
  mathematical integers; the functions with suffix `_m` compute over the machine
  types, `Int` of `w` bits and `int` (the type of the counter) of `c` bits.
-/

namespace libtorrent

/-- Data members of `sliding_average`: `m_mean` and `m_average_deviation` are
fixed point values (times 64), `m_num_samples` is the number of samples
received, capped at `inverted_gain`. -/
structure sliding_average where
  m_mean : Int
  m_average_deviation : Int
  m_num_samples : Int
deriving DecidableEq, Repr

/-- The function `std::abs` on integers. -/
def c_abs (x : Int) : Int := if x < 0 then -x else x

/-- The default constructor: `m_mean(0), m_average_deviation(0), m_num_samples(0)`. -/
def sliding_average.ctor : sliding_average :=
  { m_mean := 0, m_average_deviation := 0, m_num_samples := 0 }

/-- The member function `add_sample(Int s)`, lines 55 to 74, with the assertion
of line 57 left out (it is compiled out of release builds) and with
mathematical integers. -/
def sliding_average.add_sample (inverted_gain : Int) (st : sliding_average) (s : Int) :
    sliding_average :=
  -- s *= 64;
  let s := s * 64
  -- Int const deviation = (m_num_samples > 0) ? std::abs(m_mean - s) : 0;
  let deviation : Int := if st.m_num_samples > 0 then c_abs (st.m_mean - s) else 0
  -- if (m_num_samples < inverted_gain) ++m_num_samples;
  let m_num_samples : Int :=
    if st.m_num_samples < inverted_gain then st.m_num_samples + 1 else st.m_num_samples
  -- m_mean += (s - m_mean) / m_num_samples;
  let m_mean : Int := st.m_mean + Int.tdiv (s - st.m_mean) m_num_samples
  -- if (m_num_samples > 1)
  --   m_average_deviation += (deviation - m_average_deviation) / (m_num_samples - 1);
  let m_average_deviation : Int :=
    if m_num_samples > 1 then
      st.m_average_deviation
        + Int.tdiv (deviation - st.m_average_deviation) (m_num_samples - 1)
    else st.m_average_deviation
  { m_mean := m_mean, m_average_deviation := m_average_deviation,
    m_num_samples := m_num_samples }

/-- The member function `mean()`, line 76. -/
def sliding_average.mean (st : sliding_average) : Int :=
  if st.m_num_samples > 0 then Int.tdiv (st.m_mean + 32) 64 else 0

/-- The member function `avg_deviation()`, line 77. -/
def sliding_average.avg_deviation (st : sliding_average) : Int :=
  if st.m_num_samples > 1 then Int.tdiv (st.m_average_deviation + 32) 64 else 0

/-- The member function `num_samples()`, line 78. -/
def sliding_average.num_samples (st : sliding_average) : Int := st.m_num_samples

/-- A sequence of `add_sample` calls, in order, starting from the state `st`. -/
def sliding_average.add_samples (inverted_gain : Int) (st : sliding_average)
    (xs : List Int) : sliding_average :=
  xs.foldl (sliding_average.add_sample inverted_gain) st

/-- The state reached from a freshly constructed accumulator by adding the
samples `xs` in order. -/
def sliding_average.run (inverted_gain : Int) (xs : List Int) : sliding_average :=
  sliding_average.add_samples inverted_gain sliding_average.ctor xs

/-! ## Fixed width integers -/

/-- Largest value of a signed `w`-bit integer type,
`std::numeric_limits<Int>::max()`. -/
def int_max (w : Nat) : Int := 2 ^ (w - 1) - 1

/-- Smallest value of a signed `w`-bit integer type. -/
def int_min (w : Nat) : Int := -(2 ^ (w - 1))

/-- Membership in the range of a signed `w`-bit integer type. -/
def representable (w : Nat) (x : Int) : Prop := int_min w ≤ x ∧ x ≤ int_max w

instance (w : Nat) (x : Int) : Decidable (representable w x) := by
  unfold representable; exact inferInstance

/-- Reduction of an integer modulo `2 ^ w` into the range of a signed `w`-bit
type (wrap-around arithmetic). -/
def wrap (w : Nat) (x : Int) : Int :=
  (x + 2 ^ (w - 1)) % 2 ^ w - 2 ^ (w - 1)

/-- The condition of the assertion on line 57,
`s < std::numeric_limits<Int>::max() / 64`, for a signed `w`-bit type. -/
def sample_in_range (w : Nat) (s : Int) : Prop := s < Int.tdiv (int_max w) 64

instance (w : Nat) (s : Int) : Decidable (sample_in_range w s) := by
  unfold sample_in_range; exact inferInstance

/-- The statement `s *= 64` of line 59 in a signed `w`-bit type. -/
def scale_sample (w : Nat) (s : Int) : Int := wrap w (s * 64)

/-! ## The accumulator over the machine types

`Int` is a signed `w`-bit type and `int` a signed `c`-bit type.  An arithmetic
operation on `Int` values is done in the wider of the two types (an `Int`
narrower than `int` is promoted to `int`), so its result is reduced to
`arith_width w c` bits; a value stored in an `Int` variable or returned as `Int`
is reduced to `w` bits; the counter is an `int` and is reduced to `c` bits.
Signed overflow and division by zero are undefined behaviour: the functions
with suffix `_m` continue with the reduced value, the predicates with suffix
`_defined` say that no such operation occurs. -/

/-- Width of the type in which the arithmetic on `Int` values is done. -/
def arith_width (w c : Nat) : Nat := max w c

/-- The member function `add_sample(Int s)` over the machine types, lines 59 to
73. -/
def sliding_average.add_sample_m (w c : Nat) (inverted_gain : Int) (st : sliding_average)
    (s : Int) : sliding_average :=
  -- s *= 64;
  let s := wrap w (wrap (arith_width w c) (s * 64))
  -- Int const deviation = (m_num_samples > 0) ? std::abs(m_mean - s) : 0;
  let deviation : Int :=
    if st.m_num_samples > 0 then
      wrap w (wrap (arith_width w c) (c_abs (wrap (arith_width w c) (st.m_mean - s))))
    else 0
  -- if (m_num_samples < inverted_gain) ++m_num_samples;
  let m_num_samples : Int :=
    if st.m_num_samples < inverted_gain then wrap c (st.m_num_samples + 1)
    else st.m_num_samples
  -- m_mean += (s - m_mean) / m_num_samples;
  let m_mean : Int :=
    wrap w (wrap (arith_width w c)
      (st.m_mean
        + wrap (arith_width w c)
            (Int.tdiv (wrap (arith_width w c) (s - st.m_mean)) m_num_samples)))
  -- if (m_num_samples > 1)
  --   m_average_deviation += (deviation - m_average_deviation) / (m_num_samples - 1);
  let m_average_deviation : Int :=
    if m_num_samples > 1 then
      wrap w (wrap (arith_width w c)
        (st.m_average_deviation
          + wrap (arith_width w c)
              (Int.tdiv (wrap (arith_width w c) (deviation - st.m_average_deviation))
                (wrap c (m_num_samples - 1)))))
    else st.m_average_deviation
  { m_mean := m_mean, m_average_deviation := m_average_deviation,
    m_num_samples := m_num_samples }

/-- No operation of the call `add_sample(s)` in the state `st` is undefined: the
product, the differences, `std::abs`, the increment of the counter, the
quotients and the sums do not overflow the type they are computed in, and no
divisor is zero. -/
def sliding_average.add_sample_defined (w c : Nat) (inverted_gain : Int)
    (st : sliding_average) (s : Int) : Prop :=
  -- s *= 64;
  representable (arith_width w c) (s * 64) ∧
  -- std::abs(m_mean - s)
  (st.m_num_samples > 0 →
    representable (arith_width w c)
      (st.m_mean - wrap w (wrap (arith_width w c) (s * 64))) ∧
    representable (arith_width w c)
      (c_abs (wrap (arith_width w c)
        (st.m_mean - wrap w (wrap (arith_width w c) (s * 64)))))) ∧
  -- ++m_num_samples;
  (st.m_num_samples < inverted_gain → representable c (st.m_num_samples + 1)) ∧
  -- (s - m_mean) / m_num_samples and the sum
  representable (arith_width w c)
    (wrap w (wrap (arith_width w c) (s * 64)) - st.m_mean) ∧
  (sliding_average.add_sample_m w c inverted_gain st s).m_num_samples ≠ 0 ∧
  representable (arith_width w c)
    (Int.tdiv
      (wrap (arith_width w c) (wrap w (wrap (arith_width w c) (s * 64)) - st.m_mean))
      (sliding_average.add_sample_m w c inverted_gain st s).m_num_samples) ∧
  representable (arith_width w c)
    (st.m_mean
      + wrap (arith_width w c)
          (Int.tdiv
            (wrap (arith_width w c) (wrap w (wrap (arith_width w c) (s * 64)) - st.m_mean))
            (sliding_average.add_sample_m w c inverted_gain st s).m_num_samples)) ∧
  -- (deviation - m_average_deviation) / (m_num_samples - 1) and the sum
  ((sliding_average.add_sample_m w c inverted_gain st s).m_num_samples > 1 →
    representable c ((sliding_average.add_sample_m w c inverted_gain st s).m_num_samples - 1) ∧
    representable (arith_width w c)
      ((if st.m_num_samples > 0 then
          wrap w (wrap (arith_width w c) (c_abs (wrap (arith_width w c)
            (st.m_mean - wrap w (wrap (arith_width w c) (s * 64))))))
        else 0) - st.m_average_deviation) ∧
    representable (arith_width w c)
      (Int.tdiv
        (wrap (arith_width w c)
          ((if st.m_num_samples > 0 then
              wrap w (wrap (arith_width w c) (c_abs (wrap (arith_width w c)
                (st.m_mean - wrap w (wrap (arith_width w c) (s * 64))))))
            else 0) - st.m_average_deviation))
        (wrap c ((sliding_average.add_sample_m w c inverted_gain st s).m_num_samples - 1))) ∧
    representable (arith_width w c)
      (st.m_average_deviation
        + wrap (arith_width w c)
            (Int.tdiv
              (wrap (arith_width w c)
                ((if st.m_num_samples > 0 then
                    wrap w (wrap (arith_width w c) (c_abs (wrap (arith_width w c)
                      (st.m_mean - wrap w (wrap (arith_width w c) (s * 64))))))
                  else 0) - st.m_average_deviation))
              (wrap c
                ((sliding_average.add_sample_m w c inverted_gain st s).m_num_samples - 1)))))

instance (w c : Nat) (G : Int) (st : sliding_average) (s : Int) :
    Decidable (sliding_average.add_sample_defined w c G st s) := by
  unfold sliding_average.add_sample_defined; exact inferInstance

/-- The member function `mean()` over the machine types, line 76: the sum and
the quotient are computed in the arithmetic type, the result is returned as
`Int`. -/
def sliding_average.mean_m (w c : Nat) (st : sliding_average) : Int :=
  if st.m_num_samples > 0 then
    wrap w (wrap (arith_width w c)
      (Int.tdiv (wrap (arith_width w c) (st.m_mean + 32)) 64))
  else 0

/-- The sum `m_mean + 32` of `mean()` does not overflow. -/
def sliding_average.mean_defined (w c : Nat) (st : sliding_average) : Prop :=
  st.m_num_samples > 0 → representable (arith_width w c) (st.m_mean + 32)

instance (w c : Nat) (st : sliding_average) :
    Decidable (sliding_average.mean_defined w c st) := by
  unfold sliding_average.mean_defined; exact inferInstance

/-- The member function `avg_deviation()` over the machine types, line 77. -/
def sliding_average.avg_deviation_m (w c : Nat) (st : sliding_average) : Int :=
  if st.m_num_samples > 1 then
    wrap w (wrap (arith_width w c)
      (Int.tdiv (wrap (arith_width w c) (st.m_average_deviation + 32)) 64))
  else 0

/-- The sum `m_average_deviation + 32` of `avg_deviation()` does not overflow. -/
def sliding_average.avg_deviation_defined (w c : Nat) (st : sliding_average) : Prop :=
  st.m_num_samples > 1 → representable (arith_width w c) (st.m_average_deviation + 32)

instance (w c : Nat) (st : sliding_average) :
    Decidable (sliding_average.avg_deviation_defined w c st) := by
  unfold sliding_average.avg_deviation_defined; exact inferInstance

/-- A sequence of `add_sample` calls over the machine types, starting from a
freshly constructed accumulator. -/
def sliding_average.run_m (w c : Nat) (inverted_gain : Int) (xs : List Int) :
    sliding_average :=
  xs.foldl (sliding_average.add_sample_m w c inverted_gain) sliding_average.ctor

/-- The member function `add_sample(Int s)` as a fallible operation: it has no
value when one of its operations is undefined. -/
def sliding_average.add_sample_checked (w c : Nat) (inverted_gain : Int)
    (st : sliding_average) (s : Int) : Option sliding_average :=
  if sliding_average.add_sample_defined w c inverted_gain st s then
    some (sliding_average.add_sample_m w c inverted_gain st s)
  else none

/-- The member function `mean()` as a fallible operation. -/
def sliding_average.mean_checked (w c : Nat) (st : sliding_average) : Option Int :=
  if sliding_average.mean_defined w c st then some (sliding_average.mean_m w c st) else none

/-- The member function `avg_deviation()` as a fallible operation. -/
def sliding_average.avg_deviation_checked (w c : Nat) (st : sliding_average) : Option Int :=
  if sliding_average.avg_deviation_defined w c st then
    some (sliding_average.avg_deviation_m w c st)
  else none

/-- A sequence of fallible `add_sample` calls from a state; it has a value only
when every call has one. -/
def sliding_average.add_samples_checked (w c : Nat) (inverted_gain : Int) :
    sliding_average → List Int → Option sliding_average
  | st, [] => some st
  | st, s :: xs =>
    match sliding_average.add_sample_checked w c inverted_gain st s with
    | none => none
    | some st1 => sliding_average.add_samples_checked w c inverted_gain st1 xs

/-- The values of type `Int` that one call `add_sample(s)` computes in the state
`st`, as mathematical integers and in the order of the source: the scaled
sample; `m_mean - s` and its absolute value when `m_num_samples > 0`;
`s - m_mean`, its quotient by the counter and the new `m_mean`; and, when the
counter exceeds 1, `deviation - m_average_deviation`, its quotient by the
counter less one and the new `m_average_deviation`. -/
def sliding_average.add_sample_values (inverted_gain : Int) (st : sliding_average)
    (s : Int) : List Int :=
  let s := s * 64
  let deviation : Int := if st.m_num_samples > 0 then c_abs (st.m_mean - s) else 0
  let m_num_samples : Int :=
    if st.m_num_samples < inverted_gain then st.m_num_samples + 1 else st.m_num_samples
  [s]
    ++ (if st.m_num_samples > 0 then [st.m_mean - s, c_abs (st.m_mean - s)] else [])
    ++ [s - st.m_mean, Int.tdiv (s - st.m_mean) m_num_samples,
        st.m_mean + Int.tdiv (s - st.m_mean) m_num_samples]
    ++ (if m_num_samples > 1 then
          [deviation - st.m_average_deviation,
           Int.tdiv (deviation - st.m_average_deviation) (m_num_samples - 1),
           st.m_average_deviation
             + Int.tdiv (deviation - st.m_average_deviation) (m_num_samples - 1)]
        else [])

/-! ## The assertion of line 57 -/

/-- The ways a call of a debug build ends without a result. -/
inductive fault where
  | assertion_failed
  | undefined_behaviour
deriving DecidableEq, Repr

/-- Modelled from the spec: the macro `TORRENT_ASSERT` of `libtorrent/assert.hpp`,
which is not among the sources.  In a debug build a false condition is a
contract failure that stops the call, a true condition has no effect. -/
def TORRENT_ASSERT (cond : Bool) : Except fault Unit :=
  if cond then Except.ok () else Except.error fault.assertion_failed

/-- The member function `add_sample(Int s)` of a debug build over the machine
types: line 57 asserts `s < std::numeric_limits<Int>::max() / 64`, then the body
runs; the body has no result when one of its operations is undefined. -/
def sliding_average.add_sample_debug (w c : Nat) (inverted_gain : Int)
    (st : sliding_average) (s : Int) : Except fault sliding_average :=
  match TORRENT_ASSERT (decide (s < Int.tdiv (int_max w) 64)) with
  | Except.error e => Except.error e
  | Except.ok _ =>
    match sliding_average.add_sample_checked w c inverted_gain st s with
    | none => Except.error fault.undefined_behaviour
    | some st1 => Except.ok st1

/-! ## Smallest and largest sample -/

/-- The smallest element of a list of samples (0 for the empty list). -/
def samples_min : List Int → Int
  | [] => 0
  | s :: xs => xs.foldl min s

/-- The largest element of a list of samples (0 for the empty list). -/
def samples_max : List Int → Int
  | [] => 0
  | s :: xs => xs.foldl max s

/-- Both running values of `st` are consistent with samples between `lo` and
`hi`: the counter is not negative, once a sample is counted `m_mean` lies
between `64 * lo` and `64 * hi`, and `m_average_deviation` lies between 0 and
`64 * (hi - lo)`. -/
def sliding_average.within (lo hi : Int) (st : sliding_average) : Prop :=
  0 ≤ st.m_num_samples ∧
  (1 ≤ st.m_num_samples → 64 * lo ≤ st.m_mean ∧ st.m_mean ≤ 64 * hi) ∧
  0 ≤ st.m_average_deviation ∧ st.m_average_deviation ≤ 64 * (hi - lo)

/-! ## The reference value of the ramp-up claim -/

/-- The arithmetic mean of `xs` rounded to the nearest integer, exact halves
rounded up: `floor (sum / n + 1/2)`, written with floor division on integers.
This follows the words of the specification, not the code. -/
def rounded_arithmetic_mean (xs : List Int) : Int :=
  (2 * xs.sum + (xs.length : Int)) / (2 * (xs.length : Int))

/-- Every prefix of `xs` has an integral scaled average: `k` divides 64 times the
sum of the first `k` samples, for every `k` up to the length of `xs`. -/
def exact_prefix_averages (xs : List Int) : Prop :=
  ∀ k : Nat, k ≤ xs.length → (k : Int) ∣ 64 * (xs.take k).sum

instance (xs : List Int) : Decidable (exact_prefix_averages xs) := by
  unfold exact_prefix_averages; exact inferInstance

/-- The scaled sum of `xs` keeps a distance of `n * (n - 1) / 2`, the largest
accumulated truncation, from the two values at which the rounded arithmetic
mean changes. -/
def ramp_margin (xs : List Int) : Prop :=
  (xs.length : Int) * (64 * rounded_arithmetic_mean xs - 32)
      + (xs.length : Int) * ((xs.length : Int) - 1) / 2 ≤ 64 * xs.sum ∧
  64 * xs.sum + (xs.length : Int) * ((xs.length : Int) - 1) / 2
      < (xs.length : Int) * (64 * rounded_arithmetic_mean xs + 32)

instance (xs : List Int) : Decidable (ramp_margin xs) := by
  unfold ramp_margin; exact inferInstance

/-! ## Arithmetic of truncating division -/

theorem c_abs_nonneg (x : Int) : 0 ≤ c_abs x := by
  unfold c_abs; split <;> omega

theorem tdiv_bounds_of_nonneg {x n : Int} (hx : 0 ≤ x) (hn : 1 ≤ n) :
    0 ≤ Int.tdiv x n ∧ Int.tdiv x n ≤ x := by
  rw [Int.tdiv_eq_ediv hx (by omega)]
  constructor
  · exact Int.ediv_nonneg hx (by omega)
  · exact Int.ediv_le_self n hx

theorem tdiv_bounds_of_nonpos {x n : Int} (hx : x ≤ 0) (hn : 1 ≤ n) :
    x ≤ Int.tdiv x n ∧ Int.tdiv x n ≤ 0 := by
  have h := tdiv_bounds_of_nonneg (x := -x) (by omega) hn
  rw [Int.neg_tdiv] at h
  omega

/-- One step of the moving average stays between the old value and the target. -/
theorem step_between {m t n : Int} (hn : 1 ≤ n) :
    (m ≤ t → m ≤ m + Int.tdiv (t - m) n ∧ m + Int.tdiv (t - m) n ≤ t) ∧
    (t ≤ m → t ≤ m + Int.tdiv (t - m) n ∧ m + Int.tdiv (t - m) n ≤ m) := by
  constructor
  · intro h
    have := tdiv_bounds_of_nonneg (x := t - m) (by omega) hn
    omega
  · intro h
    have := tdiv_bounds_of_nonpos (x := t - m) (by omega) hn
    omega

theorem step_nonneg {m t n : Int} (hn : 1 ≤ n) (hm : 0 ≤ m) (ht : 0 ≤ t) :
    0 ≤ m + Int.tdiv (t - m) n := by
  rcases le_total m t with h | h
  · have := (step_between (m := m) (t := t) hn).1 h
    omega
  · have := (step_between (m := m) (t := t) hn).2 h
    omega

/-! ## The sample counter -/

theorem add_samples_nil (G : Int) (st : sliding_average) :
    sliding_average.add_samples G st [] = st := rfl

theorem add_samples_cons (G : Int) (st : sliding_average) (s : Int) (xs : List Int) :
    sliding_average.add_samples G st (s :: xs)
      = sliding_average.add_samples G (sliding_average.add_sample G st s) xs := rfl

theorem add_samples_append (G : Int) (st : sliding_average) (xs ys : List Int) :
    sliding_average.add_samples G st (xs ++ ys)
      = sliding_average.add_samples G (sliding_average.add_samples G st xs) ys := by
  simp [sliding_average.add_samples, List.foldl_append]

theorem run_append (G : Int) (xs ys : List Int) :
    sliding_average.run G (xs ++ ys)
      = sliding_average.add_samples G (sliding_average.run G xs) ys := by
  simp [sliding_average.run, add_samples_append]

theorem add_sample_num_samples (G : Int) (st : sliding_average) (s : Int) :
    (sliding_average.add_sample G st s).m_num_samples
      = if st.m_num_samples < G then st.m_num_samples + 1 else st.m_num_samples := rfl

theorem add_samples_num_samples (G : Int) (xs : List Int) :
    ∀ st : sliding_average, st.m_num_samples ≤ G →
      (sliding_average.add_samples G st xs).m_num_samples
        = min (st.m_num_samples + (xs.length : Int)) G := by
  induction xs with
  | nil => intro st h; simp [add_samples_nil]; omega
  | cons s xs ih =>
    intro st h
    rw [add_samples_cons, ih]
    · rw [add_sample_num_samples]
      simp only [List.length_cons, Nat.cast_add, Nat.cast_one]
      split <;> omega
    · rw [add_sample_num_samples]
      split <;> omega

theorem run_num_samples (G : Int) (hG : 1 ≤ G) (xs : List Int) :
    (sliding_average.run G xs).m_num_samples = min (xs.length : Int) G := by
  have h := add_samples_num_samples G xs sliding_average.ctor
    (by simp [sliding_average.ctor]; omega)
  simpa [sliding_average.run, sliding_average.ctor] using h

theorem add_sample_mean (G : Int) (st : sliding_average) (s : Int) :
    (sliding_average.add_sample G st s).m_mean
      = st.m_mean
        + Int.tdiv (s * 64 - st.m_mean) (sliding_average.add_sample G st s).m_num_samples :=
  rfl

theorem add_sample_deviation (G : Int) (st : sliding_average) (s : Int) :
    (sliding_average.add_sample G st s).m_average_deviation
      = if (sliding_average.add_sample G st s).m_num_samples > 1 then
          st.m_average_deviation
            + Int.tdiv
                ((if st.m_num_samples > 0 then c_abs (st.m_mean - s * 64) else 0)
                  - st.m_average_deviation)
                ((sliding_average.add_sample G st s).m_num_samples - 1)
        else st.m_average_deviation :=
  rfl

theorem run_snoc (G : Int) (xs : List Int) (s : Int) :
    sliding_average.run G (xs ++ [s])
      = sliding_average.add_sample G (sliding_average.run G xs) s := by
  rw [run_append]; rfl

theorem c_abs_eq_abs (x : Int) : c_abs x = |x| := by
  unfold c_abs
  split
  · rw [abs_of_neg (by assumption)]
  · rw [abs_of_nonneg (by omega)]

/-! ## Ramp-up with exact divisions -/

theorem exact_prefix_averages_of_snoc {xs : List Int} {s : Int}
    (h : exact_prefix_averages (xs ++ [s])) : exact_prefix_averages xs := by
  intro k hk
  have h1 := h k (by simp; omega)
  rwa [List.take_append_of_le_length hk] at h1

theorem run_mean_exact (G : Int) (hG : 1 ≤ G) (xs : List Int) :
    (xs.length : Int) ≤ G → exact_prefix_averages xs →
      (sliding_average.run G xs).m_mean * (xs.length : Int) = 64 * xs.sum := by
  induction xs using List.reverseRecOn with
  | nil => intro _ _; simp
  | append_singleton xs s ih =>
    intro hlen hex
    simp only [List.length_append, List.length_singleton, Nat.cast_add, Nat.cast_one] at hlen
    have ih1 := ih (by omega) (exact_prefix_averages_of_snoc hex)
    have hcnt : (sliding_average.run G (xs ++ [s])).m_num_samples = (xs.length : Int) + 1 := by
      rw [run_num_samples G hG]
      simp only [List.length_append, List.length_singleton, Nat.cast_add, Nat.cast_one]
      omega
    have hdvd := hex (xs.length + 1) (by simp)
    rw [List.take_of_length_le (by simp)] at hdvd
    simp only [List.sum_append, List.sum_cons, List.sum_nil, add_zero, Nat.cast_add,
      Nat.cast_one] at hdvd
    have hm := add_sample_mean G (sliding_average.run G xs) s
    rw [← run_snoc, hcnt] at hm
    have hdvd2 : ((xs.length : Int) + 1) ∣ (s * 64 - (sliding_average.run G xs).m_mean) := by
      have e : s * 64 - (sliding_average.run G xs).m_mean
          = 64 * (xs.sum + s)
            - (sliding_average.run G xs).m_mean * ((xs.length : Int) + 1) := by
        rw [mul_add (64 : Int), ← ih1]; ring
      rw [e]
      exact Int.dvd_sub hdvd (Dvd.intro_left _ rfl)
    have hq := Int.tdiv_mul_cancel hdvd2
    simp only [List.length_append, List.length_singleton, Nat.cast_add, Nat.cast_one,
      List.sum_append, List.sum_cons, List.sum_nil, add_zero]
    rw [hm, add_mul, hq, mul_add (64 : Int), ← ih1]
    ring

theorem floor_round_of_scaled {m S n : Int} (hn : 1 ≤ n) (h : m * n = 64 * S) :
    (m + 32) / 64 = (2 * S + n) / (2 * n) := by
  have h64 : (0 : Int) < 64 := by decide
  have h2n : (0 : Int) < 2 * n := by omega
  have hlo : 64 * ((m + 32) / 64) ≤ m + 32 := Int.mul_ediv_self_le (by decide)
  have hhi : m + 32 < 64 * ((m + 32) / 64) + 64 := Int.lt_mul_ediv_self_add h64
  symm
  apply Int.le_antisymm
  · apply Int.le_of_lt_add_one
    rw [Int.ediv_lt_iff_lt_mul h2n]
    nlinarith
  · rw [Int.le_ediv_iff_mul_le h2n]
    nlinarith

/-! ## The counter is positive after a call -/

theorem add_sample_num_samples_pos (G : Int) (hG : 1 ≤ G) (st : sliding_average) (s : Int)
    (h : 0 ≤ st.m_num_samples) : 1 ≤ (sliding_average.add_sample G st s).m_num_samples := by
  rw [add_sample_num_samples]
  split <;> omega

/-! ## Signs of the two running values -/

theorem add_sample_deviation_nonneg (G : Int) (st : sliding_average) (s : Int)
    (h : 0 ≤ st.m_average_deviation) :
    0 ≤ (sliding_average.add_sample G st s).m_average_deviation := by
  rw [add_sample_deviation]
  split
  · apply step_nonneg (by omega) h
    split
    · exact c_abs_nonneg _
    · exact le_refl 0
  · exact h

theorem add_samples_deviation_nonneg (G : Int) (xs : List Int) :
    ∀ st : sliding_average, 0 ≤ st.m_average_deviation →
      0 ≤ (sliding_average.add_samples G st xs).m_average_deviation := by
  induction xs with
  | nil => intro st h; exact h
  | cons s xs ih =>
    intro st h
    rw [add_samples_cons]
    exact ih _ (add_sample_deviation_nonneg G st s h)

theorem run_deviation_nonneg (G : Int) (xs : List Int) :
    0 ≤ (sliding_average.run G xs).m_average_deviation :=
  add_samples_deviation_nonneg G xs sliding_average.ctor (le_refl 0)

theorem add_sample_mean_nonneg (G : Int) (hG : 1 ≤ G) (st : sliding_average) (s : Int)
    (hc : 0 ≤ st.m_num_samples) (h : 0 ≤ st.m_mean) (hs : 0 ≤ s) :
    0 ≤ (sliding_average.add_sample G st s).m_mean := by
  rw [add_sample_mean]
  exact step_nonneg (add_sample_num_samples_pos G hG st s hc) h (by omega)

theorem add_samples_mean_nonneg (G : Int) (hG : 1 ≤ G) (xs : List Int) :
    ∀ st : sliding_average, 0 ≤ st.m_num_samples → 0 ≤ st.m_mean → (∀ x ∈ xs, 0 ≤ x) →
      0 ≤ (sliding_average.add_samples G st xs).m_mean := by
  induction xs with
  | nil => intro st _ h _; exact h
  | cons s xs ih =>
    intro st hc h hx
    rw [add_samples_cons]
    have hs : 0 ≤ s := hx s (List.mem_cons_self s xs)
    apply ih _ _ (add_sample_mean_nonneg G hG st s hc h hs)
    · intro x hxm; exact hx x (List.mem_cons_of_mem s hxm)
    · have := add_sample_num_samples_pos G hG st s hc
      omega

theorem run_mean_nonneg (G : Int) (hG : 1 ≤ G) (xs : List Int) (hx : ∀ x ∈ xs, 0 ≤ x) :
    0 ≤ (sliding_average.run G xs).m_mean :=
  add_samples_mean_nonneg G hG xs sliding_average.ctor (le_refl 0) (le_refl 0) hx

/-- Truncating division by 64 after adding 32 is rounding to nearest with halves
up, as soon as the value is at least -32. -/
theorem round_half_up (m : Int) (h : -32 ≤ m) :
    Int.tdiv (m + 32) 64 = (m + 32) / 64 ∧
    64 * Int.tdiv (m + 32) 64 - 32 ≤ m ∧ m < 64 * Int.tdiv (m + 32) 64 + 32 := by
  rw [Int.tdiv_eq_ediv (by omega) (by decide)]
  omega

/-! ## The first two samples -/

theorem run_single (G : Int) (hG : 1 ≤ G) (a : Int) :
    sliding_average.run G [a]
      = { m_mean := 64 * a, m_average_deviation := 0, m_num_samples := 1 } := by
  have hc : (sliding_average.run G [a]).m_num_samples = 1 := by
    rw [run_num_samples G hG]; simp; omega
  have hm := add_sample_mean G sliding_average.ctor a
  have hd := add_sample_deviation G sliding_average.ctor a
  change (sliding_average.run G [a]).m_mean = _ at hm
  change (sliding_average.run G [a]).m_average_deviation = _ at hd
  change (sliding_average.run G [a]).m_mean
    = _ + Int.tdiv _ (sliding_average.run G [a]).m_num_samples at hm
  rw [hc] at hm
  change (sliding_average.run G [a]).m_average_deviation
    = if (sliding_average.run G [a]).m_num_samples > 1 then _ else _ at hd
  rw [hc] at hd
  simp [sliding_average.ctor] at hm hd
  cases hr : sliding_average.run G [a] with
  | mk m d n =>
    rw [hr] at hm hd hc
    simp only at hm hd hc
    rw [hm, hd, hc, mul_comm]

theorem run_pair (G : Int) (hG : 2 ≤ G) (a b : Int) :
    sliding_average.run G [a, b]
      = { m_mean := 32 * (a + b), m_average_deviation := 64 * |a - b|, m_num_samples := 2 } := by
  have h : sliding_average.run G [a, b]
      = sliding_average.add_sample G (sliding_average.run G [a]) b := rfl
  have e1 : b * 64 - 64 * a = 2 * (32 * (b - a)) := by ring
  have e2 : c_abs (64 * a - b * 64) = 64 * |a - b| := by
    rw [c_abs_eq_abs, show 64 * a - b * 64 = 64 * (a - b) by ring, abs_mul]
    rfl
  rw [h, run_single G (by omega)]
  unfold sliding_average.add_sample
  simp only []
  rw [if_pos (by omega : (1 : Int) < G), if_pos (by decide), if_pos (by decide), e1, e2,
    show (1 : Int) + 1 - 1 = 1 by decide, show (1 : Int) + 1 = 2 by decide,
    Int.mul_tdiv_cancel_left _ (by decide), Int.tdiv_one]
  simp only [sub_zero, zero_add]
  congr 1
  ring

theorem run_pair_gain_one (a b : Int) :
    sliding_average.run 1 [a, b]
      = { m_mean := 64 * b, m_average_deviation := 0, m_num_samples := 1 } := by
  have h : sliding_average.run 1 [a, b]
      = sliding_average.add_sample 1 (sliding_average.run 1 [a]) b := rfl
  rw [h, run_single 1 (by decide)]
  unfold sliding_average.add_sample
  simp only []
  rw [if_neg (by decide), if_neg (by decide), Int.tdiv_one]
  congr 1
  ring

/-! ## Fixed width arithmetic -/

theorem two_pow_pred (w : Nat) (hw : 1 ≤ w) : (2 : Int) ^ w = 2 * 2 ^ (w - 1) := by
  obtain ⟨k, rfl⟩ : ∃ k, w = k + 1 := ⟨w - 1, by omega⟩
  simp [pow_succ, mul_comm]

theorem two_pow_pos (k : Nat) : (0 : Int) < 2 ^ k := by positivity

theorem wrap_of_representable (w : Nat) (hw : 1 ≤ w) (x : Int) (h : representable w x) :
    wrap w x = x := by
  unfold representable int_min int_max at h
  unfold wrap
  rw [two_pow_pred w hw]
  have hp := two_pow_pos (w - 1)
  generalize (2 : Int) ^ (w - 1) = P at h hp ⊢
  rw [Int.emod_eq_of_lt (by omega) (by omega)]
  omega

/-! ## The deviation before the second sample -/

theorem add_sample_deviation_zero (G : Int) (st : sliding_average) (s : Int)
    (h : st.m_num_samples ≤ 1 → st.m_average_deviation = 0) :
    (sliding_average.add_sample G st s).m_num_samples ≤ 1 →
      (sliding_average.add_sample G st s).m_average_deviation = 0 := by
  intro h1
  rw [add_sample_deviation, if_neg (by omega)]
  apply h
  rw [add_sample_num_samples] at h1
  split at h1 <;> omega

theorem add_samples_deviation_zero (G : Int) (xs : List Int) :
    ∀ st : sliding_average, (st.m_num_samples ≤ 1 → st.m_average_deviation = 0) →
      (sliding_average.add_samples G st xs).m_num_samples ≤ 1 →
        (sliding_average.add_samples G st xs).m_average_deviation = 0 := by
  induction xs with
  | nil => intro st h; exact h
  | cons s xs ih =>
    intro st h
    rw [add_samples_cons]
    exact ih _ (add_sample_deviation_zero G st s h)

/-! ## Both running values stay within the data -/

theorem step_in_interval {m t n lo hi : Int} (hn : 1 ≤ n) (hm : lo ≤ m ∧ m ≤ hi)
    (ht : lo ≤ t ∧ t ≤ hi) :
    lo ≤ m + Int.tdiv (t - m) n ∧ m + Int.tdiv (t - m) n ≤ hi := by
  rcases le_total m t with h | h
  · have := (step_between (m := m) (t := t) hn).1 h
    omega
  · have := (step_between (m := m) (t := t) hn).2 h
    omega

theorem c_abs_sub_le {a b lo hi : Int} (ha : lo ≤ a ∧ a ≤ hi) (hb : lo ≤ b ∧ b ≤ hi) :
    0 ≤ c_abs (a - b) ∧ c_abs (a - b) ≤ hi - lo := by
  unfold c_abs
  split <;> omega

theorem add_sample_within (G : Int) (hG : 1 ≤ G) (lo hi : Int) (st : sliding_average)
    (s : Int) (hs : lo ≤ s ∧ s ≤ hi) (h : st.within lo hi) :
    (sliding_average.add_sample G st s).within lo hi ∧
    1 ≤ (sliding_average.add_sample G st s).m_num_samples := by
  obtain ⟨hc, hm, hd0, hd1⟩ := h
  have hn := add_sample_num_samples_pos G hG st s hc
  have hs64 : 64 * lo ≤ s * 64 ∧ s * 64 ≤ 64 * hi := by omega
  have hmean : 64 * lo ≤ (sliding_average.add_sample G st s).m_mean ∧
      (sliding_average.add_sample G st s).m_mean ≤ 64 * hi := by
    rw [add_sample_mean]
    rcases Int.lt_or_le st.m_num_samples 1 with h0 | h1
    · have hcnt : (sliding_average.add_sample G st s).m_num_samples = 1 := by
        rw [add_sample_num_samples, if_pos (by omega)]; omega
      rw [hcnt, Int.tdiv_one]
      omega
    · exact step_in_interval hn (hm h1) hs64
  have hdev : 0 ≤ (sliding_average.add_sample G st s).m_average_deviation ∧
      (sliding_average.add_sample G st s).m_average_deviation ≤ 64 * (hi - lo) := by
    rw [add_sample_deviation]
    split
    · apply step_in_interval (by omega) ⟨hd0, hd1⟩
      split
      · have := c_abs_sub_le (hm (by omega)) hs64
        omega
      · omega
    · exact ⟨hd0, hd1⟩
  exact ⟨⟨by omega, fun _ => hmean, hdev.1, hdev.2⟩, hn⟩

theorem add_samples_within (G : Int) (hG : 1 ≤ G) (lo hi : Int) (xs : List Int) :
    ∀ st : sliding_average, st.within lo hi → (∀ x ∈ xs, lo ≤ x ∧ x ≤ hi) →
      (sliding_average.add_samples G st xs).within lo hi := by
  induction xs with
  | nil => intro st h _; exact h
  | cons s xs ih =>
    intro st h hx
    rw [add_samples_cons]
    apply ih _ (add_sample_within G hG lo hi st s (hx s (List.mem_cons_self s xs)) h).1
    intro x hxm
    exact hx x (List.mem_cons_of_mem s hxm)

theorem run_within (G : Int) (hG : 1 ≤ G) (lo hi : Int) (hlh : lo ≤ hi) (xs : List Int)
    (hx : ∀ x ∈ xs, lo ≤ x ∧ x ≤ hi) : (sliding_average.run G xs).within lo hi := by
  apply add_samples_within G hG lo hi xs sliding_average.ctor _ hx
  refine ⟨le_refl 0, ?_, le_refl 0, ?_⟩
  · intro h; exact absurd h (by decide)
  · show (0 : Int) ≤ 64 * (hi - lo)
    omega

theorem run_num_samples_pos (G : Int) (hG : 1 ≤ G) (xs : List Int) (hne : xs ≠ []) :
    1 ≤ (sliding_average.run G xs).m_num_samples := by
  rw [run_num_samples G hG]
  have : 1 ≤ xs.length := List.length_pos.mpr hne
  omega

theorem foldl_min_le (xs : List Int) :
    ∀ a : Int, xs.foldl min a ≤ a ∧ ∀ x ∈ xs, xs.foldl min a ≤ x := by
  induction xs with
  | nil => intro a; exact ⟨le_refl a, fun x hx => absurd hx (List.not_mem_nil x)⟩
  | cons y ys ih =>
    intro a
    have h := ih (min a y)
    have h1 : min a y ≤ a := min_le_left a y
    have h2 : min a y ≤ y := min_le_right a y
    refine ⟨le_trans h.1 h1, ?_⟩
    intro x hx
    rcases List.mem_cons.mp hx with rfl | hx
    · exact le_trans h.1 h2
    · exact h.2 x hx

theorem le_foldl_max (xs : List Int) :
    ∀ a : Int, a ≤ xs.foldl max a ∧ ∀ x ∈ xs, x ≤ xs.foldl max a := by
  induction xs with
  | nil => intro a; exact ⟨le_refl a, fun x hx => absurd hx (List.not_mem_nil x)⟩
  | cons y ys ih =>
    intro a
    have h := ih (max a y)
    have h1 : a ≤ max a y := le_max_left a y
    have h2 : y ≤ max a y := le_max_right a y
    refine ⟨le_trans h1 h.1, ?_⟩
    intro x hx
    rcases List.mem_cons.mp hx with rfl | hx
    · exact le_trans h2 h.1
    · exact h.2 x hx

theorem samples_min_le_max (xs : List Int) :
    samples_min xs ≤ samples_max xs ∧ ∀ x ∈ xs, samples_min xs ≤ x ∧ x ≤ samples_max xs := by
  cases xs with
  | nil => exact ⟨le_refl 0, fun x hx => absurd hx (List.not_mem_nil x)⟩
  | cons s xs =>
    have h1 := foldl_min_le xs s
    have h2 := le_foldl_max xs s
    refine ⟨le_trans h1.1 h2.1, ?_⟩
    intro x hx
    rcases List.mem_cons.mp hx with rfl | hx
    · exact ⟨h1.1, h2.1⟩
    · exact ⟨h1.2 x hx, h2.2 x hx⟩

/-! ## Accumulated truncation during ramp-up -/

theorem tdiv_remainder_bound {a n : Int} (hn : 1 ≤ n) :
    |a - n * Int.tdiv a n| ≤ n - 1 := by
  rcases le_or_lt 0 a with h | h
  · rw [Int.tdiv_eq_ediv h (by omega)]
    have h1 : n * (a / n) ≤ a := Int.mul_ediv_self_le (by omega)
    have h2 : a < n * (a / n) + n := Int.lt_mul_ediv_self_add (by omega)
    rw [abs_le]
    constructor <;> linarith
  · rw [show a = -(-a) by ring, Int.neg_tdiv, Int.tdiv_eq_ediv (by omega) (by omega)]
    have h1 : n * (-a / n) ≤ -a := Int.mul_ediv_self_le (by omega)
    have h2 : -a < n * (-a / n) + n := Int.lt_mul_ediv_self_add (by omega)
    have h3 : n * -(-a / n) = -(n * (-a / n)) := by ring
    rw [abs_le, h3]
    constructor <;> linarith

theorem run_ramp_error (G : Int) (hG : 1 ≤ G) (xs : List Int) :
    (xs.length : Int) ≤ G →
      2 * |(xs.length : Int) * (sliding_average.run G xs).m_mean - 64 * xs.sum|
        ≤ (xs.length : Int) * ((xs.length : Int) - 1) := by
  induction xs using List.reverseRecOn with
  | nil => intro _; simp [sliding_average.run, sliding_average.add_samples, sliding_average.ctor]
  | append_singleton xs s ih =>
    intro hlen
    simp only [List.length_append, List.length_singleton, Nat.cast_add, Nat.cast_one] at hlen
    have ih1 := ih (by omega)
    have hcnt : (sliding_average.run G (xs ++ [s])).m_num_samples = (xs.length : Int) + 1 := by
      rw [run_num_samples G hG]
      simp only [List.length_append, List.length_singleton, Nat.cast_add, Nat.cast_one]
      omega
    have hm := add_sample_mean G (sliding_average.run G xs) s
    rw [← run_snoc, hcnt] at hm
    have hn0 : (0 : Int) ≤ (xs.length : Int) := Int.ofNat_nonneg _
    have hb := tdiv_remainder_bound (a := s * 64 - (sliding_average.run G xs).m_mean)
      (n := (xs.length : Int) + 1) (by omega)
    simp only [List.length_append, List.length_singleton, Nat.cast_add, Nat.cast_one,
      List.sum_append, List.sum_cons, List.sum_nil, add_zero]
    rw [hm]
    generalize Int.tdiv (s * 64 - (sliding_average.run G xs).m_mean) ((xs.length : Int) + 1)
      = q at hb ⊢
    generalize (sliding_average.run G xs).m_mean = m at ih1 hb ⊢
    generalize (xs.length : Int) = n at ih1 hb hn0 ⊢
    have key : (n + 1) * (m + q) - 64 * (xs.sum + s)
        = (n * m - 64 * xs.sum) - (s * 64 - m - (n + 1) * q) := by ring
    rw [key]
    have htri := abs_sub (n * m - 64 * xs.sum) (s * 64 - m - (n + 1) * q)
    nlinarith

theorem run_pair_avg_deviation (G : Int) (hG : 2 ≤ G) (a b : Int) :
    (sliding_average.run G [a, b]).avg_deviation = |a - b| := by
  have hpos : 0 ≤ |a - b| := abs_nonneg _
  rw [run_pair G hG]
  unfold sliding_average.avg_deviation
  simp only []
  rw [if_pos (by decide), Int.tdiv_eq_ediv (by omega) (by decide)]
  omega

/-! ## No overflow for non-negative samples in range -/

theorem wrap_of_bounded (w : Nat) (hw : 1 ≤ w) (B x : Int) (hB : B ≤ int_max w)
    (h : -B ≤ x ∧ x ≤ B) : wrap w x = x ∧ representable w x := by
  have hr : representable w x := by
    unfold representable int_min
    unfold int_max at hB ⊢
    omega
  exact ⟨wrap_of_representable w hw x hr, hr⟩

theorem tdiv_abs_le {x n B : Int} (hn : 1 ≤ n) (h : -B ≤ x ∧ x ≤ B) :
    -B ≤ Int.tdiv x n ∧ Int.tdiv x n ≤ B := by
  rcases le_total 0 x with h0 | h0
  · have := tdiv_bounds_of_nonneg h0 hn
    omega
  · have := tdiv_bounds_of_nonpos h0 hn
    omega

/-- The bound `64 * (M / 64 - 1)` on scaled samples leaves room for the rounding
term: it is at most `M - 64`, and it is not negative from 8 bits on. -/
theorem scaled_bound (w : Nat) (hw : 8 ≤ w) :
    0 ≤ Int.tdiv (int_max w) 64 - 1 ∧
    64 * (Int.tdiv (int_max w) 64 - 1) + 64 ≤ int_max w := by
  have h128 : (2 : Int) ^ 7 ≤ 2 ^ (w - 1) :=
    pow_le_pow_right₀ (by decide) (by omega)
  unfold int_max
  generalize (2 : Int) ^ (w - 1) = P at h128 ⊢
  rw [Int.tdiv_eq_ediv (by omega) (by decide)]
  omega

/-! ## The machine computation where no value leaves the type -/

theorem representable_mono {w a : Nat} (hwa : w ≤ a) {x : Int} (h : representable w x) :
    representable a x := by
  have hp : (2 : Int) ^ (w - 1) ≤ 2 ^ (a - 1) := pow_le_pow_right₀ (by decide) (by omega)
  unfold representable int_min int_max at h ⊢
  omega

theorem wrap_store (w a : Nat) (hw : 1 ≤ w) (hwa : w ≤ a) (x : Int)
    (h : representable w x) : wrap a x = x ∧ wrap w x = x ∧ representable a x :=
  ⟨wrap_of_representable a (by omega) x (representable_mono hwa h),
   wrap_of_representable w hw x h, representable_mono hwa h⟩

theorem representable_of_bounds (c : Nat) (x : Int) (h : 0 ≤ x ∧ x ≤ int_max c) :
    representable c x := by
  have hp := two_pow_pos (c - 1)
  unfold representable int_min
  unfold int_max at h ⊢
  omega

theorem add_sample_m_eq (w c : Nat) (hw : 1 ≤ w) (hc : 1 ≤ c) (G : Int) (hG : 1 ≤ G)
    (st : sliding_average) (s : Int)
    (hcnt : 0 ≤ st.m_num_samples ∧ st.m_num_samples ≤ int_max c)
    (hGc : st.m_num_samples < G → st.m_num_samples + 1 ≤ int_max c)
    (hv : ∀ v ∈ sliding_average.add_sample_values G st s, representable w v) :
    sliding_average.add_sample_m w c G st s = sliding_average.add_sample G st s ∧
    sliding_average.add_sample_defined w c G st s := by
  obtain ⟨m, d, k⟩ := st
  simp only [] at hcnt hGc
  have hwa : w ≤ arith_width w c := le_max_left w c
  have hca : c ≤ arith_width w c := le_max_right w c
  unfold sliding_average.add_sample_defined sliding_average.add_sample_m
    sliding_average.add_sample
  unfold sliding_average.add_sample_values at hv
  simp only [] at hv ⊢
  generalize arith_width w c = a at hwa hca ⊢
  -- the counter
  have hN : (if k < G then wrap c (k + 1) else k) = (if k < G then k + 1 else k) := by
    split
    · rename_i h
      have := hGc h
      exact wrap_of_representable c hc _ (representable_of_bounds c _ (by omega))
    · rfl
  have hn1 : 1 ≤ (if k < G then k + 1 else k) ∧ (if k < G then k + 1 else k) ≤ int_max c := by
    split
    · rename_i h
      have := hGc h
      omega
    · omega
  have hinc : k < G → representable c (k + 1) :=
    fun h => representable_of_bounds c _ (by have := hGc h; omega)
  rw [hN]
  generalize (if k < G then k + 1 else k) = n at hv hn1 ⊢
  have hC := wrap_of_representable c hc (n - 1) (representable_of_bounds c _ (by omega))
  have hCr : representable c (n - 1) := representable_of_bounds c _ (by omega)
  -- the values that are always computed
  have v1 := wrap_store w a hw hwa _ (hv (s * 64) (by simp))
  have v4 := wrap_store w a hw hwa _ (hv (s * 64 - m) (by simp))
  have v5 := wrap_store w a hw hwa _ (hv (Int.tdiv (s * 64 - m) n) (by simp))
  have v6 := wrap_store w a hw hwa _ (hv (m + Int.tdiv (s * 64 - m) n) (by simp))
  by_cases hk : k > 0
  · have v2 := wrap_store w a hw hwa _ (hv (m - s * 64) (by simp [hk]))
    have v3 := wrap_store w a hw hwa _ (hv (c_abs (m - s * 64)) (by simp [hk]))
    by_cases hn : n > 1
    · have v7 := wrap_store w a hw hwa _ (hv (c_abs (m - s * 64) - d) (by simp [hk, hn]))
      have v8 := wrap_store w a hw hwa _
        (hv (Int.tdiv (c_abs (m - s * 64) - d) (n - 1)) (by simp [hk, hn]))
      have v9 := wrap_store w a hw hwa _
        (hv (d + Int.tdiv (c_abs (m - s * 64) - d) (n - 1)) (by simp [hk, hn]))
      simp only [if_pos hk, if_pos hn, v1.1, v1.2.1, v2.1, v3.1, v3.2.1, v4.1, v5.1, v6.1,
        v6.2.1, v7.1, hC, v8.1, v9.1, v9.2.1, true_and]
      exact ⟨v1.2.2, fun _ => ⟨v2.2.2, v3.2.2⟩, hinc, v4.2.2, by omega, v5.2.2, v6.2.2,
        fun _ => ⟨hCr, v7.2.2, v8.2.2, v9.2.2⟩⟩
    · simp only [if_pos hk, if_neg hn, v1.1, v1.2.1, v2.1, v3.1, v3.2.1, v4.1, v5.1, v6.1,
        v6.2.1, true_and]
      exact ⟨v1.2.2, fun _ => ⟨v2.2.2, v3.2.2⟩, hinc, v4.2.2, by omega, v5.2.2, v6.2.2,
        fun h => absurd h hn⟩
  · by_cases hn : n > 1
    · have v7 := wrap_store w a hw hwa _ (hv (0 - d) (by simp [hk, hn]))
      have v8 := wrap_store w a hw hwa _ (hv (Int.tdiv (0 - d) (n - 1)) (by simp [hk, hn]))
      have v9 := wrap_store w a hw hwa _
        (hv (d + Int.tdiv (0 - d) (n - 1)) (by simp [hk, hn]))
      simp only [if_neg hk, if_pos hn, v1.1, v1.2.1, v4.1, v5.1, v6.1, v6.2.1, v7.1, hC,
        v8.1, v9.1, v9.2.1, true_and]
      exact ⟨v1.2.2, fun h => absurd h hk, hinc, v4.2.2, by omega, v5.2.2, v6.2.2,
        fun _ => ⟨hCr, v7.2.2, v8.2.2, v9.2.2⟩⟩
    · simp only [if_neg hk, if_neg hn, v1.1, v1.2.1, v4.1, v5.1, v6.1, v6.2.1, true_and]
      exact ⟨v1.2.2, fun h => absurd h hk, hinc, v4.2.2, by omega, v5.2.2, v6.2.2,
        fun h => absurd h hn⟩

/-! ## Non-negative samples in range keep every value in the type -/

theorem add_sample_values_bounded (w : Nat) (hw : 1 ≤ w) (G : Int) (hG : 1 ≤ G) (B : Int)
    (hB : B ≤ int_max w) (st : sliding_average) (s : Int)
    (hs : 0 ≤ s * 64 ∧ s * 64 ≤ B) (hc : 0 ≤ st.m_num_samples)
    (hm : 0 ≤ st.m_mean ∧ st.m_mean ≤ B)
    (hd : 0 ≤ st.m_average_deviation ∧ st.m_average_deviation ≤ B) :
    ∀ v ∈ sliding_average.add_sample_values G st s, representable w v := by
  have hn := add_sample_num_samples_pos G hG st s hc
  rw [add_sample_num_samples] at hn
  unfold sliding_average.add_sample_values
  simp only []
  generalize (if st.m_num_samples < G then st.m_num_samples + 1 else st.m_num_samples) = n
    at hn ⊢
  obtain ⟨m, d, k⟩ := st
  simp only [] at hs hc hm hd ⊢
  have v1 := (wrap_of_bounded w hw B (s * 64) hB (by omega)).2
  have v2 := (wrap_of_bounded w hw B (m - s * 64) hB (by omega)).2
  have habs : 0 ≤ c_abs (m - s * 64) ∧ c_abs (m - s * 64) ≤ B := by
    unfold c_abs; split <;> omega
  have v3 := (wrap_of_bounded w hw B (c_abs (m - s * 64)) hB (by omega)).2
  have v4 := (wrap_of_bounded w hw B (s * 64 - m) hB (by omega)).2
  have hq := tdiv_abs_le (x := s * 64 - m) (n := n) (B := B) hn (by omega)
  have v5 := (wrap_of_bounded w hw B (Int.tdiv (s * 64 - m) n) hB hq).2
  have hm1 := @step_in_interval m (s * 64) n 0 B hn hm hs
  have v6 := (wrap_of_bounded w hw B (m + Int.tdiv (s * 64 - m) n) hB (by omega)).2
  have hdev : 0 ≤ (if k > 0 then c_abs (m - s * 64) else 0) ∧
      (if k > 0 then c_abs (m - s * 64) else 0) ≤ B := by
    split <;> omega
  generalize (if k > 0 then c_abs (m - s * 64) else 0) = dev at hdev ⊢
  have v7 := (wrap_of_bounded w hw B (dev - d) hB (by omega)).2
  have hfirst : ∀ v ∈ [s * 64] ++ (if k > 0 then [m - s * 64, c_abs (m - s * 64)] else [])
      ++ [s * 64 - m, Int.tdiv (s * 64 - m) n, m + Int.tdiv (s * 64 - m) n],
      representable w v := by
    intro v hv
    simp only [List.mem_append, List.mem_cons, List.mem_singleton, List.not_mem_nil,
      or_false] at hv
    rcases hv with (hv | hv) | hv
    · rw [hv]; exact v1
    · split at hv
      · simp only [List.mem_cons, List.mem_singleton, List.not_mem_nil, or_false] at hv
        rcases hv with hv | hv
        · rw [hv]; exact v2
        · rw [hv]; exact v3
      · exact absurd hv (List.not_mem_nil v)
    · rcases hv with hv | hv | hv
      · rw [hv]; exact v4
      · rw [hv]; exact v5
      · rw [hv]; exact v6
  intro v hv
  rcases List.mem_append.mp hv with hv | hv
  · exact hfirst v hv
  · by_cases hn1 : n > 1
    · have hq2 := tdiv_abs_le (x := dev - d) (n := n - 1) (B := B) (by omega) (by omega)
      have v8 := (wrap_of_bounded w hw B (Int.tdiv (dev - d) (n - 1)) hB hq2).2
      have hd1 := @step_in_interval d dev (n - 1) 0 B (by omega) hd hdev
      have v9 := (wrap_of_bounded w hw B (d + Int.tdiv (dev - d) (n - 1)) hB (by omega)).2
      rw [if_pos hn1] at hv
      simp only [List.mem_cons, List.mem_singleton, List.not_mem_nil, or_false] at hv
      rcases hv with hv | hv | hv
      · rw [hv]; exact v7
      · rw [hv]; exact v8
      · rw [hv]; exact v9
    · rw [if_neg hn1] at hv
      exact absurd hv (List.not_mem_nil v)

theorem run_bounds (G : Int) (hG : 1 ≤ G) (hi : Int) (hhi : 0 ≤ hi) (xs : List Int)
    (hx : ∀ x ∈ xs, 0 ≤ x ∧ x ≤ hi) :
    (0 ≤ (sliding_average.run G xs).m_num_samples ∧
      (sliding_average.run G xs).m_num_samples ≤ G) ∧
    (0 ≤ (sliding_average.run G xs).m_mean ∧
      (sliding_average.run G xs).m_mean ≤ 64 * hi) ∧
    (0 ≤ (sliding_average.run G xs).m_average_deviation ∧
      (sliding_average.run G xs).m_average_deviation ≤ 64 * hi) := by
  have hw := run_within G hG 0 hi hhi xs hx
  obtain ⟨hc, hm, hd0, hd1⟩ := hw
  have hcnt := run_num_samples G hG xs
  refine ⟨⟨hc, by omega⟩, ?_, hd0, by omega⟩
  cases xs with
  | nil =>
    show (0 : Int) ≤ 0 ∧ (0 : Int) ≤ 64 * hi
    omega
  | cons s xs =>
    have := hm (run_num_samples_pos G hG (s :: xs) (List.cons_ne_nil s xs))
    omega

theorem sample_bound (w : Nat) (s : Int) (h : 0 ≤ s ∧ sample_in_range w s) :
    0 ≤ s ∧ s ≤ Int.tdiv (int_max w) 64 - 1 := by
  unfold sample_in_range at h
  omega

theorem run_m_snoc (w c : Nat) (G : Int) (xs : List Int) (s : Int) :
    sliding_average.run_m w c G (xs ++ [s])
      = sliding_average.add_sample_m w c G (sliding_average.run_m w c G xs) s := by
  simp [sliding_average.run_m, List.foldl_append]

/-- One call in a state reached by non-negative samples in range: the machine
computation is defined, equals the computation over the integers, and every
value it computes fits the type `Int`. -/
theorem add_sample_m_in_range (w c : Nat) (hw : 8 ≤ w) (hc : 1 ≤ c) (G : Int) (hG : 1 ≤ G)
    (hGc : G ≤ int_max c) (xs : List Int)
    (hx : ∀ x ∈ xs, 0 ≤ x ∧ sample_in_range w x) (s : Int)
    (hs : 0 ≤ s ∧ sample_in_range w s) :
    (∀ v ∈ sliding_average.add_sample_values G (sliding_average.run G xs) s,
      representable w v) ∧
    sliding_average.add_sample_m w c G (sliding_average.run G xs) s
      = sliding_average.add_sample G (sliding_average.run G xs) s ∧
    sliding_average.add_sample_defined w c G (sliding_average.run G xs) s := by
  have hsb := scaled_bound w hw
  have hs1 := sample_bound w s hs
  have hb := run_bounds G hG _ hsb.1 xs (fun x h => sample_bound w x (hx x h))
  have hv := add_sample_values_bounded w (by omega) G hG
    (64 * (Int.tdiv (int_max w) 64 - 1)) (by omega) (sliding_average.run G xs) s
    (by omega) hb.1.1 hb.2.1 hb.2.2
  exact ⟨hv, add_sample_m_eq w c (by omega) hc G hG _ s ⟨hb.1.1, by omega⟩
    (fun _ => by omega) hv⟩

theorem run_m_eq (w c : Nat) (hw : 8 ≤ w) (hc : 1 ≤ c) (G : Int) (hG : 1 ≤ G)
    (hGc : G ≤ int_max c) (xs : List Int) :
    (∀ x ∈ xs, 0 ≤ x ∧ sample_in_range w x) →
      sliding_average.run_m w c G xs = sliding_average.run G xs := by
  induction xs using List.reverseRecOn with
  | nil => intro _; rfl
  | append_singleton xs s ih =>
    intro hx
    have hxs : ∀ x ∈ xs, 0 ≤ x ∧ sample_in_range w x :=
      fun x h => hx x (List.mem_append_left [s] h)
    have hs := hx s (List.mem_append_right xs (List.mem_singleton_self s))
    rw [run_m_snoc, ih hxs, run_snoc]
    exact (add_sample_m_in_range w c hw hc G hG hGc xs hxs s hs).2.1

theorem rounding_m_eq (w a : Nat) (hw : 1 ≤ w) (hwa : w ≤ a) (B x : Int)
    (hB : B + 32 ≤ int_max w) (hx : 0 ≤ x ∧ x ≤ B) :
    wrap w (wrap a (Int.tdiv (wrap a (x + 32)) 64)) = Int.tdiv (x + 32) 64 ∧
    representable a (x + 32) := by
  have v1 := wrap_store w a hw hwa (x + 32)
    (wrap_of_bounded w hw (B + 32) (x + 32) hB (by omega)).2
  have hq := tdiv_bounds_of_nonneg (x := x + 32) (n := 64) (by omega) (by decide)
  have v2 := wrap_store w a hw hwa (Int.tdiv (x + 32) 64)
    (wrap_of_bounded w hw (B + 32) (Int.tdiv (x + 32) 64) hB (by omega)).2
  rw [v1.1, v2.1, v2.2.1]
  exact ⟨rfl, v1.2.2⟩

/-- The two readers in a state reached by non-negative samples in range. -/
theorem readers_m_in_range (w c : Nat) (hw : 8 ≤ w) (G : Int) (hG : 1 ≤ G) (xs : List Int)
    (hx : ∀ x ∈ xs, 0 ≤ x ∧ sample_in_range w x) :
    ((sliding_average.run G xs).mean_m w c = (sliding_average.run G xs).mean ∧
      (sliding_average.run G xs).mean_defined w c) ∧
    ((sliding_average.run G xs).avg_deviation_m w c
        = (sliding_average.run G xs).avg_deviation ∧
      (sliding_average.run G xs).avg_deviation_defined w c) ∧
    representable w ((sliding_average.run G xs).m_mean + 32) ∧
    representable w ((sliding_average.run G xs).m_average_deviation + 32) := by
  have hsb := scaled_bound w hw
  have hb := run_bounds G hG _ hsb.1 xs (fun x h => sample_bound w x (hx x h))
  have hwa : w ≤ arith_width w c := le_max_left w c
  have hrm := rounding_m_eq w (arith_width w c) (by omega) hwa
    (64 * (Int.tdiv (int_max w) 64 - 1)) (sliding_average.run G xs).m_mean (by omega) hb.2.1
  have hrd := rounding_m_eq w (arith_width w c) (by omega) hwa
    (64 * (Int.tdiv (int_max w) 64 - 1)) (sliding_average.run G xs).m_average_deviation
    (by omega) hb.2.2
  have r1 := (wrap_of_bounded w (by omega) (64 * (Int.tdiv (int_max w) 64 - 1) + 32)
    ((sliding_average.run G xs).m_mean + 32) (by omega) (by omega)).2
  have r2 := (wrap_of_bounded w (by omega) (64 * (Int.tdiv (int_max w) 64 - 1) + 32)
    ((sliding_average.run G xs).m_average_deviation + 32) (by omega) (by omega)).2
  refine ⟨⟨?_, fun _ => hrm.2⟩, ⟨?_, fun _ => hrd.2⟩, r1, r2⟩
  · unfold sliding_average.mean_m sliding_average.mean
    rw [hrm.1]
  · unfold sliding_average.avg_deviation_m sliding_average.avg_deviation
    rw [hrd.1]

/-! ## The counter over the machine types -/

theorem add_sample_m_num_samples (w c : Nat) (G : Int) (st : sliding_average) (s : Int) :
    (sliding_average.add_sample_m w c G st s).m_num_samples
      = if st.m_num_samples < G then wrap c (st.m_num_samples + 1) else st.m_num_samples :=
  rfl

theorem add_sample_m_deviation_of_le (w c : Nat) (G : Int) (st : sliding_average) (s : Int)
    (h : (sliding_average.add_sample_m w c G st s).m_num_samples ≤ 1) :
    (sliding_average.add_sample_m w c G st s).m_average_deviation
      = st.m_average_deviation := by
  rw [add_sample_m_num_samples] at h
  unfold sliding_average.add_sample_m
  simp only []
  rw [if_neg (by omega)]

theorem run_m_num_samples (w c : Nat) (hc : 1 ≤ c) (G : Int) (hG : 1 ≤ G)
    (hGc : G ≤ int_max c) (xs : List Int) :
    (sliding_average.run_m w c G xs).m_num_samples = min (xs.length : Int) G := by
  induction xs using List.reverseRecOn with
  | nil =>
    show (0 : Int) = min ((0 : Nat) : Int) G
    simp only [Nat.cast_zero]
    omega
  | append_singleton xs s ih =>
    rw [run_m_snoc, add_sample_m_num_samples, ih]
    simp only [List.length_append, List.length_singleton, Nat.cast_add, Nat.cast_one]
    have hn0 : (0 : Int) ≤ (xs.length : Int) := Int.ofNat_nonneg _
    split
    · rw [wrap_of_representable c hc _ (representable_of_bounds c _ (by omega))]
      omega
    · omega

theorem wrap_bounds (c : Nat) (hc : 1 ≤ c) (x : Int) :
    int_min c ≤ wrap c x ∧ wrap c x ≤ int_max c := by
  unfold wrap int_min int_max
  rw [two_pow_pred c hc]
  have hp := two_pow_pos (c - 1)
  generalize (2 : Int) ^ (c - 1) = P at hp ⊢
  have h1 := Int.emod_nonneg (x + P) (by omega : 2 * P ≠ 0)
  have h2 := Int.emod_lt_of_pos (x + P) (by omega : 0 < 2 * P)
  omega

theorem wrap_add_left (c : Nat) (x y : Int) : wrap c (wrap c x + y) = wrap c (x + y) := by
  unfold wrap
  have e : (x + 2 ^ (c - 1)) % 2 ^ c - 2 ^ (c - 1) + y + 2 ^ (c - 1)
      = (x + 2 ^ (c - 1)) % 2 ^ c + y := by ring
  rw [e, Int.emod_add_emod]
  congr 2
  ring

theorem wrap_zero (c : Nat) (hc : 1 ≤ c) : wrap c 0 = 0 :=
  wrap_of_representable c hc 0 (representable_of_bounds c 0
    ⟨le_refl 0, by have := two_pow_pos (c - 1); unfold int_max; omega⟩)

/-- A stream of zero samples with a gain above the largest `int`: both running
values stay 0 and the counter is the number of calls reduced to `c` bits. -/
theorem run_m_zeros (w c : Nat) (hw : 1 ≤ w) (hc : 1 ≤ c) (G : Int) (hG : int_max c < G)
    (j : Nat) :
    sliding_average.run_m w c G (List.replicate j 0)
      = { m_mean := 0, m_average_deviation := 0, m_num_samples := wrap c (j : Int) } := by
  induction j with
  | zero =>
    show sliding_average.ctor = _
    rw [Nat.cast_zero, wrap_zero c hc]
    rfl
  | succ j ih =>
    rw [List.replicate_succ', run_m_snoc, ih]
    have hk := (wrap_bounds c hc (j : Int)).2
    have hza := wrap_zero (arith_width w c) (le_trans hw (le_max_left w c))
    have hzw := wrap_zero w hw
    have habs : c_abs 0 = 0 := by decide
    unfold sliding_average.add_sample_m
    simp only [zero_mul, sub_self, hza, hzw, habs, ite_self, Int.zero_tdiv, add_zero]
    rw [if_pos (by omega), wrap_add_left, Nat.cast_add, Nat.cast_one]

/-! ## When the values of one call fit the type -/

/-- The values of one call fit the type `Int` as soon as the scaled sample, the
mean, their difference in the direction computed and the running deviation do. -/
theorem add_sample_values_representable (w : Nat) (hw : 1 ≤ w) (G : Int) (hG : 1 ≤ G)
    (st : sliding_average) (s : Int) (hc : 0 ≤ st.m_num_samples)
    (hs : representable w (s * 64)) (hm : representable w st.m_mean)
    (hsm : representable w (s * 64 - st.m_mean))
    (hms : st.m_num_samples > 0 → representable w (st.m_mean - s * 64))
    (hd : 0 ≤ st.m_average_deviation ∧ st.m_average_deviation ≤ int_max w) :
    ∀ v ∈ sliding_average.add_sample_values G st s, representable w v := by
  have hn := add_sample_num_samples_pos G hG st s hc
  rw [add_sample_num_samples] at hn
  unfold sliding_average.add_sample_values
  simp only []
  generalize (if st.m_num_samples < G then st.m_num_samples + 1 else st.m_num_samples) = n
    at hn ⊢
  obtain ⟨m, d, k⟩ := st
  simp only [] at hs hc hm hsm hms hd ⊢
  have hp := two_pow_pos (w - 1)
  have v5 : representable w (Int.tdiv (s * 64 - m) n) := by
    rcases le_total 0 (s * 64 - m) with h0 | h0
    · have := tdiv_bounds_of_nonneg h0 hn
      unfold representable int_min int_max at hsm ⊢
      omega
    · have := tdiv_bounds_of_nonpos h0 hn
      unfold representable int_min int_max at hsm ⊢
      omega
  have v6 : representable w (m + Int.tdiv (s * 64 - m) n) :=
    @step_in_interval m (s * 64) n (int_min w) (int_max w) hn hm hs
  have hdev : 0 ≤ (if k > 0 then c_abs (m - s * 64) else 0) ∧
      (if k > 0 then c_abs (m - s * 64) else 0) ≤ int_max w := by
    split
    · rename_i hk
      have h1 := hms hk
      unfold representable int_min int_max at h1 hsm
      unfold c_abs int_max
      split <;> omega
    · unfold int_max; omega
  have v3 : k > 0 → representable w (c_abs (m - s * 64)) := by
    intro hk
    rw [if_pos hk] at hdev
    exact representable_of_bounds w _ hdev
  generalize (if k > 0 then c_abs (m - s * 64) else 0) = dev at hdev ⊢
  have v7 : representable w (dev - d) := by
    unfold representable int_min
    unfold int_max at hdev hd ⊢
    omega
  have hfirst : ∀ v ∈ [s * 64] ++ (if k > 0 then [m - s * 64, c_abs (m - s * 64)] else [])
      ++ [s * 64 - m, Int.tdiv (s * 64 - m) n, m + Int.tdiv (s * 64 - m) n],
      representable w v := by
    intro v hv
    simp only [List.mem_append, List.mem_cons, List.mem_singleton, List.not_mem_nil,
      or_false] at hv
    rcases hv with (hv | hv) | hv
    · rw [hv]; exact hs
    · split at hv
      · rename_i hk
        simp only [List.mem_cons, List.mem_singleton, List.not_mem_nil, or_false] at hv
        rcases hv with hv | hv
        · rw [hv]; exact hms hk
        · rw [hv]; exact v3 hk
      · exact absurd hv (List.not_mem_nil v)
    · rcases hv with hv | hv | hv
      · rw [hv]; exact hsm
      · rw [hv]; exact v5
      · rw [hv]; exact v6
  intro v hv
  rcases List.mem_append.mp hv with hv | hv
  · exact hfirst v hv
  · by_cases hn1 : n > 1
    · have v8 : representable w (Int.tdiv (dev - d) (n - 1)) := by
        have := tdiv_abs_le (x := dev - d) (n := n - 1) (B := int_max w) (by omega) (by omega)
        exact (wrap_of_bounded w hw (int_max w) _ (le_refl _) this).2
      have hd1 := @step_in_interval d dev (n - 1) 0 (int_max w) (by omega) hd hdev
      have v9 : representable w (d + Int.tdiv (dev - d) (n - 1)) :=
        representable_of_bounds w _ hd1
      rw [if_pos hn1] at hv
      simp only [List.mem_cons, List.mem_singleton, List.not_mem_nil, or_false] at hv
      rcases hv with hv | hv | hv
      · rw [hv]; exact v7
      · rw [hv]; exact v8
      · rw [hv]; exact v9
    · rw [if_neg hn1] at hv
      exact absurd hv (List.not_mem_nil v)

/-! ## The first two samples over the machine types -/

theorem run_m_single (w c : Nat) (hw : 1 ≤ w) (hc : 1 ≤ c) (G : Int) (hG : 1 ≤ G)
    (hGc : G ≤ int_max c) (a : Int) (ha : representable w (a * 64)) :
    sliding_average.run_m w c G [a]
        = { m_mean := 64 * a, m_average_deviation := 0, m_num_samples := 1 } ∧
    sliding_average.add_sample_defined w c G sliding_average.ctor a := by
  have hM : 0 ≤ int_max w := by
    have := two_pow_pos (w - 1); unfold int_max; omega
  have hv := add_sample_values_representable w hw G hG sliding_average.ctor a (le_refl 0) ha
    (representable_of_bounds w 0 ⟨le_refl 0, hM⟩)
    (by show representable w (a * 64 - 0); rw [sub_zero]; exact ha)
    (fun h => absurd h (by decide)) ⟨le_refl 0, hM⟩
  have h := add_sample_m_eq w c hw hc G hG sliding_average.ctor a
    ⟨le_refl 0, by show (0 : Int) ≤ int_max c; omega⟩
    (fun _ => by show (0 : Int) + 1 ≤ int_max c; omega) hv
  have e : sliding_average.run_m w c G [a]
      = sliding_average.add_sample_m w c G sliding_average.ctor a := rfl
  have e2 : sliding_average.add_sample G sliding_average.ctor a
      = sliding_average.run G [a] := rfl
  rw [e, h.1, e2, run_single G hG]
  exact ⟨rfl, h.2⟩

theorem abs_sub_bounds (a b : Int) : a - b ≤ |a - b| ∧ b - a ≤ |a - b| ∧ 0 ≤ |a - b| := by
  refine ⟨le_abs_self _, ?_, abs_nonneg _⟩
  have := neg_abs_le (a - b)
  omega

theorem run_m_pair (w c : Nat) (hw : 1 ≤ w) (hc : 1 ≤ c) (G : Int) (hG : 2 ≤ G)
    (hGc : G ≤ int_max c) (a b : Int) (ha : representable w (a * 64))
    (hb : representable w (b * 64)) (hab : 64 * |a - b| ≤ int_max w) :
    sliding_average.run_m w c G [a, b]
        = { m_mean := 32 * (a + b), m_average_deviation := 64 * |a - b|,
            m_num_samples := 2 } ∧
    sliding_average.add_sample_defined w c G (sliding_average.run_m w c G [a]) b := by
  have hM : 0 ≤ int_max w := by
    have := two_pow_pos (w - 1); unfold int_max; omega
  have h1 := (run_m_single w c hw hc G (by omega) hGc a ha).1
  have hbd := abs_sub_bounds a b
  have hv := add_sample_values_representable w hw G (by omega)
    { m_mean := 64 * a, m_average_deviation := 0, m_num_samples := 1 } b
    (by show (0 : Int) ≤ 1; decide) hb
    (by show representable w (64 * a); rw [mul_comm]; exact ha)
    (by
      show representable w (b * 64 - 64 * a)
      unfold representable int_min
      unfold int_max at hab ⊢
      omega)
    (fun _ => by
      show representable w (64 * a - b * 64)
      unfold representable int_min
      unfold int_max at hab ⊢
      omega)
    ⟨le_refl 0, hM⟩
  have h := add_sample_m_eq w c hw hc G (by omega)
    { m_mean := 64 * a, m_average_deviation := 0, m_num_samples := 1 } b
    ⟨by show (0 : Int) ≤ 1; decide, by show (1 : Int) ≤ int_max c; omega⟩
    (fun _ => by show (1 : Int) + 1 ≤ int_max c; omega) hv
  have e : sliding_average.run_m w c G [a, b]
      = sliding_average.add_sample_m w c G (sliding_average.run_m w c G [a]) b := rfl
  have e2 : sliding_average.add_sample G
      { m_mean := 64 * a, m_average_deviation := 0, m_num_samples := 1 } b
      = sliding_average.run G [a, b] := by
    rw [← run_single G (by omega : 1 ≤ G) a]; rfl
  rw [e, h1, h.1, e2, run_pair G hG]
  exact ⟨rfl, h.2⟩

/-- The largest value of a type of at least 7 bits is one less than a multiple
of 64, so a multiple of 64 that fits leaves room for the rounding term. -/
theorem add_half_fits (w : Nat) (hw : 7 ≤ w) (x : Int) (h : 64 * x ≤ int_max w) :
    64 * x + 32 ≤ int_max w := by
  have e : (2 : Int) ^ (w - 1) = 64 * 2 ^ (w - 7) := by
    have : w - 1 = 6 + (w - 7) := by omega
    rw [this, pow_add]
    norm_num
  unfold int_max at h ⊢
  rw [e] at h ⊢
  omega

theorem avg_deviation_m_of_scaled (w c : Nat) (hw : 7 ≤ w) (m x : Int) (hx : 0 ≤ x)
    (h : 64 * x ≤ int_max w) :
    ({ m_mean := m, m_average_deviation := 64 * x, m_num_samples := 2 }
        : sliding_average).avg_deviation_m w c = x ∧
    ({ m_mean := m, m_average_deviation := 64 * x, m_num_samples := 2 }
        : sliding_average).avg_deviation_defined w c := by
  have hr := rounding_m_eq w (arith_width w c) (by omega) (le_max_left w c) (64 * x) (64 * x)
    (add_half_fits w hw x h) ⟨by omega, le_refl _⟩
  unfold sliding_average.avg_deviation_m sliding_average.avg_deviation_defined
  simp only []
  rw [if_pos (by decide), hr.1, Int.tdiv_eq_ediv (by omega) (by decide)]
  exact ⟨by omega, fun _ => hr.2⟩

/-! ## A stream that leaves both running values fixed -/

theorem tdiv_neg_of_lt {d k : Int} (hd : 0 ≤ d) (hk : d < k) : Int.tdiv (0 - d) k = 0 := by
  rw [zero_sub, Int.neg_tdiv, Int.tdiv_eq_ediv hd (by omega), Int.ediv_eq_zero_of_lt hd hk]
  rfl

theorem add_sample_m_fixed (w c : Nat) (hw : 8 ≤ w) (hc : 1 ≤ c) (G d k : Int)
    (hd : 0 ≤ d ∧ d < k) (hk : k < G) (hkc : k + 1 ≤ int_max c) (hdw : d ≤ int_max w) :
    sliding_average.add_sample_m w c G
        { m_mean := 64, m_average_deviation := d, m_num_samples := k } 1
      = { m_mean := 64, m_average_deviation := d, m_num_samples := k + 1 } := by
  have h64 : (64 : Int) ≤ int_max w := by
    have := scaled_bound w hw; omega
  have hv := add_sample_values_bounded w (by omega) G (by omega) (int_max w) (le_refl _)
    { m_mean := 64, m_average_deviation := d, m_num_samples := k } 1
    ⟨by decide, h64⟩ (by show (0 : Int) ≤ k; omega)
    ⟨by show (0 : Int) ≤ 64; decide, h64⟩ ⟨hd.1, hdw⟩
  have h := add_sample_m_eq w c (by omega) hc G (by omega)
    { m_mean := 64, m_average_deviation := d, m_num_samples := k } 1
    ⟨by show (0 : Int) ≤ k; omega, by show k ≤ int_max c; omega⟩ (fun _ => hkc) hv
  rw [h.1]
  unfold sliding_average.add_sample
  simp only []
  have hz : c_abs ((64 : Int) - 1 * 64) = 0 := by decide
  rw [if_pos hk, if_pos (by omega : k > 0), if_pos (by omega : k + 1 > 1), hz,
    show (1 : Int) * 64 - 64 = 0 by decide, Int.zero_tdiv, add_sub_cancel_right,
    tdiv_neg_of_lt hd.1 hd.2]
  simp only [add_zero]

theorem foldl_add_sample_m_fixed (w c : Nat) (hw : 8 ≤ w) (hc : 1 ≤ c) (G d : Int)
    (hdw : d ≤ int_max w) (j : Nat) :
    ∀ k : Int, 0 ≤ d ∧ d < k → k + (j : Int) ≤ G → k + (j : Int) ≤ int_max c →
      List.foldl (sliding_average.add_sample_m w c G)
          { m_mean := 64, m_average_deviation := d, m_num_samples := k } (List.replicate j 1)
        = { m_mean := 64, m_average_deviation := d, m_num_samples := k + (j : Int) } := by
  induction j with
  | zero => intro k _ _ _; simp
  | succ j ih =>
    intro k hd hG hkc
    rw [Nat.cast_add, Nat.cast_one] at hG hkc
    have hj0 : (0 : Int) ≤ (j : Int) := Int.ofNat_nonneg _
    rw [List.replicate_succ, List.foldl_cons,
      add_sample_m_fixed w c hw hc G d k hd (by omega) (by omega) hdw,
      ih (k + 1) (by omega) (by omega) (by omega), Nat.cast_add, Nat.cast_one]
    congr 1
    ring

theorem run_m_append (w c : Nat) (G : Int) (xs ys : List Int) :
    sliding_average.run_m w c G (xs ++ ys)
      = List.foldl (sliding_average.add_sample_m w c G) (sliding_average.run_m w c G xs) ys := by
  simp [sliding_average.run_m, List.foldl_append]

/-! ## When the rounded mean of the ramp-up is the rounded arithmetic mean -/

theorem mean_eq_rounded (G : Int) (hG : 1 ≤ G) (xs : List Int) (h1 : 1 ≤ xs.length)
    (hlen : (xs.length : Int) ≤ G) (hnn : ∀ x ∈ xs, 0 ≤ x)
    (hcase : xs.length ≤ 3 ∨ ramp_margin xs ∨ exact_prefix_averages xs) :
    (sliding_average.run G xs).mean = rounded_arithmetic_mean xs := by
  have hm0 := run_mean_nonneg G hG xs hnn
  have herr := run_ramp_error G hG xs hlen
  have hcnt : (sliding_average.run G xs).m_num_samples = (xs.length : Int) := by
    rw [run_num_samples G hG]; omega
  have hpos : (1 : Int) ≤ (xs.length : Int) := by omega
  unfold sliding_average.mean
  rw [if_pos (by omega), Int.tdiv_eq_ediv (by omega) (by decide)]
  have hle := le_abs_self ((xs.length : Int) * (sliding_average.run G xs).m_mean - 64 * xs.sum)
  have hge := neg_abs_le ((xs.length : Int) * (sliding_average.run G xs).m_mean - 64 * xs.sum)
  rcases hcase with h3 | hmar | hex
  · generalize (sliding_average.run G xs).m_mean = m at hm0 herr hle hge ⊢
    unfold rounded_arithmetic_mean
    have hn : xs.length = 1 ∨ xs.length = 2 ∨ xs.length = 3 := by omega
    rcases hn with hn | hn | hn <;>
    · rw [hn] at herr hle hge ⊢
      simp only [Nat.cast_ofNat, Nat.cast_one] at herr hle hge ⊢
      omega
  · obtain ⟨hlo, hhi⟩ := hmar
    generalize (sliding_average.run G xs).m_mean = m at hm0 herr hle hge ⊢
    have he : |(xs.length : Int) * m - 64 * xs.sum|
        ≤ (xs.length : Int) * ((xs.length : Int) - 1) / 2 := by
      rw [Int.le_ediv_iff_mul_le (by decide)]
      omega
    have hlo2 : (xs.length : Int) * (64 * rounded_arithmetic_mean xs - 32)
        ≤ (xs.length : Int) * m := by omega
    have hhi2 : (xs.length : Int) * m
        < (xs.length : Int) * (64 * rounded_arithmetic_mean xs + 32) := by omega
    have a1 := le_of_mul_le_mul_left hlo2 (by omega : (0 : Int) < (xs.length : Int))
    have a2 := lt_of_mul_lt_mul_left hhi2 (by omega : (0 : Int) ≤ (xs.length : Int))
    omega
  · unfold rounded_arithmetic_mean
    exact floor_round_of_scaled hpos (run_mean_exact G hG xs hlen hex)

/-! ## Fallible calls on samples in range -/

theorem add_samples_checked_in_range (w c : Nat) (hw : 8 ≤ w) (hc : 1 ≤ c) (G : Int)
    (hG : 1 ≤ G) (hGc : G ≤ int_max c) (xs : List Int) :
    ∀ pre : List Int, (∀ x ∈ pre ++ xs, 0 ≤ x ∧ sample_in_range w x) →
      sliding_average.add_samples_checked w c G (sliding_average.run_m w c G pre) xs
        = some (sliding_average.run_m w c G (pre ++ xs)) := by
  induction xs with
  | nil => intro pre _; rw [List.append_nil]; rfl
  | cons s xs ih =>
    intro pre hx
    have hpre : ∀ x ∈ pre, 0 ≤ x ∧ sample_in_range w x :=
      fun x h => hx x (List.mem_append_left _ h)
    have hs := hx s (List.mem_append_right pre (List.mem_cons_self s xs))
    have e0 := run_m_eq w c hw hc G hG hGc pre hpre
    have hstep := add_sample_m_in_range w c hw hc G hG hGc pre hpre s hs
    rw [← e0] at hstep
    have hx2 : ∀ x ∈ (pre ++ [s]) ++ xs, 0 ≤ x ∧ sample_in_range w x := by
      intro x h
      rw [List.append_assoc, List.singleton_append] at h
      exact hx x h
    rw [sliding_average.add_samples_checked, sliding_average.add_sample_checked,
      if_pos hstep.2.2, ← run_m_snoc]
    simp only []
    rw [ih (pre ++ [s]) hx2, List.append_assoc, List.singleton_append]

theorem mean_near_rounded (G : Int) (hG : 1 ≤ G) (xs : List Int) (h1 : 1 ≤ xs.length)
    (hlen : (xs.length : Int) ≤ G) (hnn : ∀ x ∈ xs, 0 ≤ x) (h128 : xs.length ≤ 128) :
    |(sliding_average.run G xs).mean - rounded_arithmetic_mean xs| ≤ 1 := by
  have hm0 := run_mean_nonneg G hG xs hnn
  have herr := run_ramp_error G hG xs hlen
  have hcnt : (sliding_average.run G xs).m_num_samples = (xs.length : Int) := by
    rw [run_num_samples G hG]; omega
  have hpos : (1 : Int) ≤ (xs.length : Int) := by omega
  have hn128 : (xs.length : Int) ≤ 128 := by omega
  unfold sliding_average.mean rounded_arithmetic_mean
  rw [if_pos (by omega), Int.tdiv_eq_ediv (by omega) (by decide)]
  have hle := le_abs_self ((xs.length : Int) * (sliding_average.run G xs).m_mean - 64 * xs.sum)
  have hge := neg_abs_le ((xs.length : Int) * (sliding_average.run G xs).m_mean - 64 * xs.sum)
  generalize (sliding_average.run G xs).m_mean = m at hm0 herr hle hge ⊢
  generalize |(xs.length : Int) * m - 64 * xs.sum| = E at herr hle hge
  generalize (xs.length : Int) = n at herr hle hge hpos hn128 ⊢
  generalize xs.sum = S at hle hge ⊢
  have q1 : 2 * n * ((2 * S + n) / (2 * n)) ≤ 2 * S + n :=
    Int.mul_ediv_self_le (by omega)
  have q2 : 2 * S + n < 2 * n * ((2 * S + n) / (2 * n)) + 2 * n :=
    Int.lt_mul_ediv_self_add (by omega)
  have r1 : 64 * ((m + 32) / 64) ≤ m + 32 := Int.mul_ediv_self_le (by decide)
  have r2 : m + 32 < 64 * ((m + 32) / 64) + 64 := Int.lt_mul_ediv_self_add (by decide)
  generalize (2 * S + n) / (2 * n) = q at q1 q2 ⊢
  generalize (m + 32) / 64 = r at r1 r2 ⊢
  have hE : 2 * E ≤ 127 * n := by nlinarith
  rw [abs_le]
  constructor
  · by_contra hcon
    have hcon2 : r + 2 ≤ q := by omega
    nlinarith
  · by_contra hcon
    have hcon2 : q + 2 ≤ r := by omega
    nlinarith

/-! ## Claims -/

/-- C1 (counterexample): with `Int` of 64 bits, `int` of 32 bits and
`inverted_gain` = 2^32, a stream of zero samples brings `num_samples()` to
2^31 - 1 after 2^31 - 1 calls, and the next call overflows the `int` counter:
`num_samples()` is then -2^31, not min(2^31, 2^32), and it has decreased. -/
theorem C1_counter_overflow_counterexample :
    (1 : Int) ≤ 4294967296 ∧ representable 64 4294967296 ∧
    (sliding_average.run_m 64 32 4294967296 (List.replicate 2147483647 0)).num_samples
        = 2147483647 ∧
    (sliding_average.run_m 64 32 4294967296 (List.replicate 2147483648 0)).num_samples
        = -2147483648 ∧
    min (((List.replicate 2147483648 (0 : Int)).length : Nat) : Int) 4294967296
        = 2147483648 := by
  refine ⟨by decide, by decide, ?_, ?_, ?_⟩
  · rw [run_m_zeros 64 32 (by decide) (by decide) 4294967296 (by decide) 2147483647]
    decide
  · rw [run_m_zeros 64 32 (by decide) (by decide) 4294967296 (by decide) 2147483648]
    decide
  · rw [List.length_replicate]
    decide

/-- C1 (amended): for `int` of `c` bits, every `inverted_gain` G with
1 ≤ G ≤ INT_MAX and every sequence `xs` of samples added to a fresh accumulator
(any values, any width of `Int`), `num_samples()` is `min (length xs) G`; hence
one more `add_sample` never decreases it, it never exceeds G, and once it equals
G it equals G after any further samples. -/
theorem C1_num_samples_saturates (w c : Nat) (hc : 1 ≤ c) (G : Int) (hG : 1 ≤ G)
    (hGc : G ≤ int_max c) (xs : List Int) (s : Int) :
    (sliding_average.run_m w c G xs).num_samples = min (xs.length : Int) G ∧
    (sliding_average.run_m w c G xs).num_samples
      ≤ (sliding_average.add_sample_m w c G (sliding_average.run_m w c G xs) s).num_samples ∧
    (sliding_average.run_m w c G xs).num_samples ≤ G ∧
    ((sliding_average.run_m w c G xs).num_samples = G →
      ∀ ys : List Int, (sliding_average.run_m w c G (xs ++ ys)).num_samples = G) := by
  have h1 := run_m_num_samples w c hc G hG hGc xs
  have h2 := run_m_num_samples w c hc G hG hGc (xs ++ [s])
  rw [run_m_snoc] at h2
  simp only [List.length_append, List.length_singleton, Nat.cast_add, Nat.cast_one] at h2
  unfold sliding_average.num_samples
  refine ⟨h1, by omega, by omega, ?_⟩
  intro hsat ys
  rw [run_m_num_samples w c hc G hG hGc (xs ++ ys)]
  simp only [List.length_append, Nat.cast_add]
  have hy : (0 : Int) ≤ (ys.length : Int) := Int.ofNat_nonneg _
  omega

theorem C1_num_samples_saturates_witness :
    (sliding_average.run_m 16 32 2 [7, -600, 9]).num_samples
        = min (([7, -600, 9] : List Int).length : Int) 2 ∧
    (sliding_average.run_m 16 32 2 [7, -600, 9]).num_samples
      ≤ (sliding_average.add_sample_m 16 32 2
          (sliding_average.run_m 16 32 2 [7, -600, 9]) 4).num_samples ∧
    (sliding_average.run_m 16 32 2 [7, -600, 9]).num_samples ≤ 2 ∧
    ((sliding_average.run_m 16 32 2 [7, -600, 9]).num_samples = 2 →
      ∀ ys : List Int,
        (sliding_average.run_m 16 32 2 ([7, -600, 9] ++ ys)).num_samples = 2) :=
  C1_num_samples_saturates 16 32 (by decide) 2 (by decide) (by decide) [7, -600, 9] 4

/-- C2 (counterexample): with G = 4 the samples 0, 0, 1, 1 have arithmetic mean
1/2, which rounds up to 1, while `mean()` after the fourth sample is 0: the
truncated divisions leave `m_mean` at 31 instead of 32.  No value overflows
(32-bit `Int` and `int`). -/
theorem C2_ramp_up_counterexample :
    (1 : Int) ≤ 4 ∧ 1 ≤ ([0, 0, 1, 1] : List Int).length ∧
    (([0, 0, 1, 1] : List Int).length : Int) ≤ 4 ∧
    (sliding_average.run_m 32 32 4 [0, 0, 1, 1]).m_mean = 31 ∧
    (sliding_average.run_m 32 32 4 [0, 0, 1, 1]).mean_m 32 32 = 0 ∧
    (sliding_average.run 4 [0, 0, 1, 1]).mean = 0 ∧
    rounded_arithmetic_mean [0, 0, 1, 1] = 1 ∧
    (sliding_average.run_m 32 32 4 [0, 0, 1, 1]).mean_m 32 32
      ≠ rounded_arithmetic_mean [0, 0, 1, 1] := by
  decide

/-- C2 (amended): for `Int` of `w` bits (w at least 8), `int` of `c` bits, G with
1 ≤ G ≤ INT_MAX and n samples with `0 ≤ s < max / 64`, n ≤ G, added in order to a
fresh accumulator, the n-th `add_sample` uses the gain 1 / n: `m_mean` becomes
`m_mean + (64 * s - m_mean) / n`, the division truncating toward zero.
`mean()` after the n-th sample equals the arithmetic mean of the n samples
rounded to nearest, halves up, whenever n ≤ 3, or the scaled sum keeps the
distance `n * (n - 1) / 2` from the values where the rounding changes, or every
prefix has an integral scaled average; and for n ≤ 128 it differs from that
rounded mean by at most 1. -/
theorem C2_ramp_up_cumulative_average (w c : Nat) (hw : 8 ≤ w) (hc : 1 ≤ c) (G : Int)
    (hG : 1 ≤ G) (hGc : G ≤ int_max c) (xs : List Int) (s : Int)
    (hx : ∀ x ∈ xs ++ [s], 0 ≤ x ∧ sample_in_range w x)
    (hlen : ((xs ++ [s]).length : Int) ≤ G) :
    (sliding_average.run_m w c G (xs ++ [s])).m_mean
        = (sliding_average.run_m w c G xs).m_mean
          + Int.tdiv (64 * s - (sliding_average.run_m w c G xs).m_mean)
              ((xs ++ [s]).length : Int) ∧
    (sliding_average.run_m w c G (xs ++ [s])).mean_defined w c ∧
    (((xs ++ [s]).length ≤ 3 ∨ ramp_margin (xs ++ [s])
        ∨ exact_prefix_averages (xs ++ [s])) →
      (sliding_average.run_m w c G (xs ++ [s])).mean_m w c
          = rounded_arithmetic_mean (xs ++ [s])) ∧
    ((xs ++ [s]).length ≤ 128 →
      |(sliding_average.run_m w c G (xs ++ [s])).mean_m w c
          - rounded_arithmetic_mean (xs ++ [s])| ≤ 1) := by
  have hxs : ∀ x ∈ xs, 0 ≤ x ∧ sample_in_range w x :=
    fun x h => hx x (List.mem_append_left [s] h)
  have e1 := run_m_eq w c hw hc G hG hGc (xs ++ [s]) hx
  have e0 := run_m_eq w c hw hc G hG hGc xs hxs
  have hcnt : (sliding_average.run G (xs ++ [s])).m_num_samples
      = ((xs ++ [s]).length : Int) := by
    rw [run_num_samples G hG]; omega
  have hr := readers_m_in_range w c hw G hG (xs ++ [s]) hx
  rw [e1, e0, hr.1.1]
  refine ⟨?_, hr.1.2, ?_, ?_⟩
  · have hm := add_sample_mean G (sliding_average.run G xs) s
    rw [← run_snoc, hcnt] at hm
    rw [hm, mul_comm]
  · intro hcase
    exact mean_eq_rounded G hG (xs ++ [s]) (by simp) hlen (fun x h => (hx x h).1) hcase
  · intro h128
    exact mean_near_rounded G hG (xs ++ [s]) (by simp) hlen (fun x h => (hx x h).1) h128

theorem C2_ramp_up_cumulative_average_witness :
    (sliding_average.run_m 32 32 5 ([10, 20] ++ [30])).m_mean
        = (sliding_average.run_m 32 32 5 [10, 20]).m_mean
          + Int.tdiv (64 * 30 - (sliding_average.run_m 32 32 5 [10, 20]).m_mean)
              ((([10, 20] : List Int) ++ [30]).length : Int) ∧
    (sliding_average.run_m 32 32 5 ([10, 20] ++ [30])).mean_defined 32 32 ∧
    (sliding_average.run_m 32 32 5 ([10, 20] ++ [30])).mean_m 32 32
        = rounded_arithmetic_mean ([10, 20] ++ [30]) ∧
    |(sliding_average.run_m 32 32 5 ([10, 20] ++ [30])).mean_m 32 32
        - rounded_arithmetic_mean ([10, 20] ++ [30])| ≤ 1 ∧
    (sliding_average.run_m 32 32 5 [10]).mean_m 32 32 = 10 ∧
    (sliding_average.run_m 32 32 5 [10, 20]).mean_m 32 32 = 15 ∧
    (sliding_average.run_m 32 32 5 ([10, 20] ++ [30])).mean_m 32 32 = 20 ∧
    rounded_arithmetic_mean ([10, 20] ++ [30]) = 20 ∧
    ramp_margin [3, 0, 2, 4, 1] ∧ ¬ ramp_margin [0, 0, 1, 1] :=
  ⟨(C2_ramp_up_cumulative_average 32 32 (by decide) (by decide) 5 (by decide) (by decide)
      [10, 20] 30 (by decide) (by decide)).1,
   (C2_ramp_up_cumulative_average 32 32 (by decide) (by decide) 5 (by decide) (by decide)
      [10, 20] 30 (by decide) (by decide)).2.1,
   (C2_ramp_up_cumulative_average 32 32 (by decide) (by decide) 5 (by decide) (by decide)
      [10, 20] 30 (by decide) (by decide)).2.2.1 (Or.inl (by decide)),
   (C2_ramp_up_cumulative_average 32 32 (by decide) (by decide) 5 (by decide) (by decide)
      [10, 20] 30 (by decide) (by decide)).2.2.2 (by decide),
   by decide, by decide, by decide, by decide, by decide, by decide⟩

/-- C3 (counterexample): with `Int` of 16 bits, `int` of 32 bits and G = 2, the
state reached by the samples 510, 510 is (32640, 0, 2); the sample -512 passes
the assertion of line 57, and `std::abs(m_mean - s)` = 65408 is stored in the
16-bit `deviation` as -128, so `add_sample` sets `m_average_deviation` to -128
where the stated update gives 65408. -/
theorem C3_steady_state_counterexample :
    sliding_average.run_m 16 32 2 [510, 510]
        = { m_mean := 32640, m_average_deviation := 0, m_num_samples := 2 } ∧
    sample_in_range 16 510 ∧ sample_in_range 16 (-512) ∧ representable 16 (-512) ∧
    sliding_average.add_sample_m 16 32 2
        { m_mean := 32640, m_average_deviation := 0, m_num_samples := 2 } (-512)
        = { m_mean := -64, m_average_deviation := -128, m_num_samples := 2 } ∧
    (sliding_average.add_sample 2
        { m_mean := 32640, m_average_deviation := 0, m_num_samples := 2 }
        (-512)).m_average_deviation = 65408 := by
  decide

/-- C3 (amended): for `Int` of `w` bits, `int` of `c` bits, G with
1 ≤ G ≤ INT_MAX, a state with `m_num_samples = G` and a sample `s` such that
every value the call computes fits the type `Int`, `add_sample(s)` is defined,
leaves `m_num_samples = G`, sets `m_mean` to `m_mean + (64 * s - m_mean) / G`
with the division truncating toward zero, and sets `m_average_deviation` to
`m_average_deviation + (|m_mean - 64 * s| - m_average_deviation) / (G - 1)`
(with the mean before the call) when G > 1, leaving it unchanged when G = 1. -/
theorem C3_steady_state_step (w c : Nat) (hw : 1 ≤ w) (hc : 1 ≤ c) (G : Int) (hG : 1 ≤ G)
    (hGc : G ≤ int_max c) (st : sliding_average) (s : Int)
    (hsat : st.m_num_samples = G)
    (hv : ∀ v ∈ sliding_average.add_sample_values G st s, representable w v) :
    sliding_average.add_sample_checked w c G st s
        = some (sliding_average.add_sample_m w c G st s) ∧
    (sliding_average.add_sample_m w c G st s).m_num_samples = G ∧
    (sliding_average.add_sample_m w c G st s).m_mean
        = st.m_mean + Int.tdiv (64 * s - st.m_mean) G ∧
    (1 < G → (sliding_average.add_sample_m w c G st s).m_average_deviation
        = st.m_average_deviation
          + Int.tdiv (|st.m_mean - 64 * s| - st.m_average_deviation) (G - 1)) ∧
    (G = 1 → (sliding_average.add_sample_m w c G st s).m_average_deviation
        = st.m_average_deviation) := by
  have h := add_sample_m_eq w c hw hc G hG st s ⟨by omega, by omega⟩ (fun _ => by omega) hv
  have hcnt : (sliding_average.add_sample G st s).m_num_samples = G := by
    rw [add_sample_num_samples, if_neg (by omega)]; exact hsat
  unfold sliding_average.add_sample_checked
  rw [if_pos h.2, h.1]
  refine ⟨rfl, hcnt, ?_, ?_, ?_⟩
  · rw [add_sample_mean, hcnt, mul_comm]
  · intro h1
    rw [add_sample_deviation, hcnt, if_pos (by omega), if_pos (by omega), c_abs_eq_abs,
      mul_comm]
  · intro h1
    rw [add_sample_deviation, hcnt, if_neg (by omega)]

theorem C3_steady_state_step_witness :
    sliding_average.add_sample_checked 16 32 3 (sliding_average.run_m 16 32 3 [5, 9, 2]) (-11)
        = some (sliding_average.add_sample_m 16 32 3
            (sliding_average.run_m 16 32 3 [5, 9, 2]) (-11)) ∧
    (sliding_average.add_sample_m 16 32 3
        (sliding_average.run_m 16 32 3 [5, 9, 2]) (-11)).m_num_samples = 3 ∧
    (sliding_average.add_sample_m 16 32 3
        (sliding_average.run_m 16 32 3 [5, 9, 2]) (-11)).m_mean
        = (sliding_average.run_m 16 32 3 [5, 9, 2]).m_mean
          + Int.tdiv (64 * (-11) - (sliding_average.run_m 16 32 3 [5, 9, 2]).m_mean) 3 ∧
    ((1 : Int) < 3 →
      (sliding_average.add_sample_m 16 32 3
          (sliding_average.run_m 16 32 3 [5, 9, 2]) (-11)).m_average_deviation
        = (sliding_average.run_m 16 32 3 [5, 9, 2]).m_average_deviation
          + Int.tdiv (|(sliding_average.run_m 16 32 3 [5, 9, 2]).m_mean - 64 * (-11)|
              - (sliding_average.run_m 16 32 3 [5, 9, 2]).m_average_deviation) (3 - 1)) ∧
    ((3 : Int) = 1 →
      (sliding_average.add_sample_m 16 32 3
          (sliding_average.run_m 16 32 3 [5, 9, 2]) (-11)).m_average_deviation
        = (sliding_average.run_m 16 32 3 [5, 9, 2]).m_average_deviation) :=
  C3_steady_state_step 16 32 (by decide) (by decide) 3 (by decide) (by decide)
    (sliding_average.run_m 16 32 3 [5, 9, 2]) (-11) (by decide) (by decide)

/-- C4 (counterexample): after `add_sample(-1)` on a fresh accumulator with
G = 1 the state has `m_num_samples = 1` and `m_mean = -64`; `mean()` is
`(-64 + 32) / 64` truncated toward zero, that is 0, while
`floor ((-64 + 32) / 64)` is -1. -/
theorem C4_mean_floor_counterexample :
    0 < (sliding_average.run 1 [-1]).m_num_samples ∧
    (sliding_average.run 1 [-1]).m_mean = -64 ∧
    (sliding_average.run 1 [-1]).mean = 0 ∧
    ((sliding_average.run 1 [-1]).m_mean + 32) / 64 = -1 ∧
    (sliding_average.run 1 [-1]).mean ≠ ((sliding_average.run 1 [-1]).m_mean + 32) / 64 := by
  decide

/-- C4 (amended): for every state with `m_num_samples > 0`, `mean()` equals
`floor ((m_mean + 32) / 64)` exactly when `m_mean` is at least -32 or
`m_mean + 32` is a multiple of 64.  So for every such state whose `m_mean` is
at least -32, in particular every one reached from a fresh accumulator by
`add_sample` calls with non-negative samples (G at least 1), `mean()` is the
integer nearest to `m_mean / 64` with exact halves rounded up. -/
theorem C4_mean_rounds_half_up (st : sliding_average) (hcount : 0 < st.m_num_samples) :
    (st.mean = (st.m_mean + 32) / 64 ↔ (-32 ≤ st.m_mean ∨ (64 : Int) ∣ st.m_mean + 32)) ∧
    ((-32 ≤ st.m_mean ∨
        ∃ (G : Int) (xs : List Int),
          1 ≤ G ∧ (∀ x ∈ xs, 0 ≤ x) ∧ st = sliding_average.run G xs) →
      st.mean = (st.m_mean + 32) / 64 ∧
      64 * st.mean - 32 ≤ st.m_mean ∧ st.m_mean < 64 * st.mean + 32) := by
  constructor
  · unfold sliding_average.mean
    rw [if_pos hcount]
    rcases le_or_lt (-32) st.m_mean with h | h
    · rw [Int.tdiv_eq_ediv (by omega) (by decide)]
      omega
    · rw [show st.m_mean + 32 = -(-(st.m_mean + 32)) by ring, Int.neg_tdiv,
        Int.tdiv_eq_ediv (by omega) (by decide)]
      omega
  · intro hm
    have hge : -32 ≤ st.m_mean := by
      rcases hm with h | ⟨G, xs, hG, hx, rfl⟩
      · exact h
      · have := run_mean_nonneg G hG xs hx
        omega
    unfold sliding_average.mean
    rw [if_pos hcount]
    exact round_half_up st.m_mean hge

theorem C4_mean_rounds_half_up_witness :
    ({ m_mean := 96, m_average_deviation := 0, m_num_samples := 1 } : sliding_average).mean = 2 ∧
    (-32 ≤ ({ m_mean := 96, m_average_deviation := 0, m_num_samples := 1 }
              : sliding_average).m_mean ∨
        ∃ (G : Int) (xs : List Int),
          1 ≤ G ∧ (∀ x ∈ xs, 0 ≤ x) ∧
          ({ m_mean := 96, m_average_deviation := 0, m_num_samples := 1 } : sliding_average)
            = sliding_average.run G xs) ∧
    (({ m_mean := 96, m_average_deviation := 0, m_num_samples := 1 } : sliding_average).mean
        = (({ m_mean := 96, m_average_deviation := 0, m_num_samples := 1 }
              : sliding_average).m_mean + 32) / 64 ∧
      64 * ({ m_mean := 96, m_average_deviation := 0, m_num_samples := 1 }
              : sliding_average).mean - 32
        ≤ ({ m_mean := 96, m_average_deviation := 0, m_num_samples := 1 }
              : sliding_average).m_mean ∧
      ({ m_mean := 96, m_average_deviation := 0, m_num_samples := 1 } : sliding_average).m_mean
        < 64 * ({ m_mean := 96, m_average_deviation := 0, m_num_samples := 1 }
              : sliding_average).mean + 32) :=
  ⟨by decide, Or.inl (by decide),
   (C4_mean_rounds_half_up { m_mean := 96, m_average_deviation := 0, m_num_samples := 1 }
     (by decide)).2 (Or.inl (by decide))⟩

/-- C5 (counterexample): with G = 1 and the distinct samples 0 and 1,
`avg_deviation()` is still 0 after the second `add_sample`, because
`m_num_samples` stays at 1 (no value overflows: 32-bit `Int` and `int`). -/
theorem C5_deviation_lag_counterexample :
    (0 : Int) < 1 ∧ (0 : Int) ≠ 1 ∧
    (sliding_average.run 1 [0, 1]).m_num_samples = 1 ∧
    (sliding_average.run 1 [0, 1]).avg_deviation = 0 ∧
    (sliding_average.run_m 32 32 1 [0, 1]).m_num_samples = 1 ∧
    (sliding_average.run_m 32 32 1 [0, 1]).avg_deviation_m 32 32 = 0 := by
  decide

/-- C5 (amended): for `Int` of `w` bits (w at least 7), `int` of `c` bits, G
with 1 ≤ G ≤ INT_MAX and samples a, b with a ≠ b, `avg_deviation()` is 0 on a
fresh accumulator and after `add_sample(a)`; after `add_sample(a)` then
`add_sample(b)` it is 0 when G = 1, and when G is at least 2 and `64 * a`,
`64 * b` and `64 * |a - b|` fit the type `Int` it is `|a - b|`, which is not
0. -/
theorem C5_deviation_lag (w c : Nat) (hw : 7 ≤ w) (hc : 1 ≤ c) (G : Int) (hG : 1 ≤ G)
    (hGc : G ≤ int_max c) (a b : Int) (hab : a ≠ b) :
    sliding_average.ctor.avg_deviation_m w c = 0 ∧
    (sliding_average.run_m w c G [a]).avg_deviation_m w c = 0 ∧
    (2 ≤ G → representable w (a * 64) → representable w (b * 64) →
      64 * |a - b| ≤ int_max w →
      (sliding_average.run_m w c G [a, b]).avg_deviation_m w c = |a - b| ∧
      (sliding_average.run_m w c G [a, b]).avg_deviation_m w c ≠ 0 ∧
      (sliding_average.run_m w c G [a, b]).avg_deviation_defined w c) ∧
    (G = 1 → (sliding_average.run_m w c G [a, b]).avg_deviation_m w c = 0) := by
  refine ⟨rfl, ?_, ?_, ?_⟩
  · have h := run_m_num_samples w c hc G hG hGc [a]
    unfold sliding_average.avg_deviation_m
    rw [if_neg]
    rw [h]
    simp only [List.length_singleton, Nat.cast_one]
    omega
  · intro h2 ha hb hd
    have hpos : 0 < |a - b| := abs_pos.mpr (sub_ne_zero.mpr hab)
    rw [(run_m_pair w c (by omega) hc G h2 hGc a b ha hb hd).1]
    have hr := avg_deviation_m_of_scaled w c hw (32 * (a + b)) |a - b| (by omega) hd
    exact ⟨hr.1, by rw [hr.1]; omega, hr.2⟩
  · intro h1
    have h := run_m_num_samples w c hc G hG hGc [a, b]
    unfold sliding_average.avg_deviation_m
    rw [if_neg]
    rw [h]
    simp only [List.length_cons, List.length_singleton, List.length_nil, Nat.cast_ofNat]
    omega

theorem C5_deviation_lag_witness :
    sliding_average.ctor.avg_deviation_m 16 32 = 0 ∧
    (sliding_average.run_m 16 32 2 [3]).avg_deviation_m 16 32 = 0 ∧
    ((sliding_average.run_m 16 32 2 [3, -8]).avg_deviation_m 16 32 = |(3 : Int) - -8| ∧
      (sliding_average.run_m 16 32 2 [3, -8]).avg_deviation_m 16 32 ≠ 0 ∧
      (sliding_average.run_m 16 32 2 [3, -8]).avg_deviation_defined 16 32) ∧
    (sliding_average.run_m 16 32 2 [3, -8]).avg_deviation_m 16 32 = 11 :=
  ⟨(C5_deviation_lag 16 32 (by decide) (by decide) 2 (by decide) (by decide) 3 (-8)
      (by decide)).1,
   (C5_deviation_lag 16 32 (by decide) (by decide) 2 (by decide) (by decide) 3 (-8)
      (by decide)).2.1,
   (C5_deviation_lag 16 32 (by decide) (by decide) 2 (by decide) (by decide) 3 (-8)
      (by decide)).2.2.1 (by decide) (by decide) (by decide)
      (by rw [show |(3 : Int) - -8| = 11 from rfl]; decide),
   by decide⟩

/-- C6 (counterexample): the sample -1 satisfies the precondition
`s < max / 64` of a 32-bit type, and after `add_sample(-1)` on a fresh
accumulator `mean()` is 0, not -1. -/
theorem C6_single_sample_counterexample :
    (1 : Int) ≤ 1 ∧ representable 32 (-1) ∧ sample_in_range 32 (-1) ∧
    (sliding_average.add_sample 1 sliding_average.ctor (-1)).num_samples = 1 ∧
    (sliding_average.add_sample 1 sliding_average.ctor (-1)).mean = 0 ∧
    (sliding_average.add_sample 1 sliding_average.ctor (-1)).mean ≠ -1 := by
  decide

/-- C6 (amended): for every G at least 1 and every non-negative sample `s` with
`s < max / 64` for a signed `w`-bit type, after `add_sample(s)` on a fresh
accumulator `num_samples()` is 1, `mean()` is `s` and `avg_deviation()` is 0;
the scaled sample and the value rounded by `mean()` fit the `w`-bit type. -/
theorem C6_single_sample (G : Int) (hG : 1 ≤ G) (w : Nat) (s : Int) (h0 : 0 ≤ s)
    (hs : sample_in_range w s) :
    (sliding_average.add_sample G sliding_average.ctor s).num_samples = 1 ∧
    (sliding_average.add_sample G sliding_average.ctor s).mean = s ∧
    (sliding_average.add_sample G sliding_average.ctor s).avg_deviation = 0 ∧
    representable w (s * 64) ∧
    representable w ((sliding_average.add_sample G sliding_average.ctor s).m_mean + 32) := by
  have hrun : sliding_average.add_sample G sliding_average.ctor s
      = sliding_average.run G [s] := rfl
  rw [hrun, run_single G hG]
  unfold sliding_average.num_samples sliding_average.mean sliding_average.avg_deviation
  simp only []
  rw [if_pos (by decide), if_neg (by decide), Int.tdiv_eq_ediv (by omega) (by decide)]
  refine ⟨trivial, by omega, rfl, ?_, ?_⟩ <;>
  · unfold sample_in_range int_max at hs
    unfold representable int_min int_max
    have hp := two_pow_pos (w - 1)
    generalize (2 : Int) ^ (w - 1) = P at hs hp ⊢
    rw [Int.tdiv_eq_ediv (by omega) (by decide)] at hs
    omega

theorem C6_single_sample_witness :
    (sliding_average.add_sample 5 sliding_average.ctor 10).num_samples = 1 ∧
    (sliding_average.add_sample 5 sliding_average.ctor 10).mean = 10 ∧
    (sliding_average.add_sample 5 sliding_average.ctor 10).avg_deviation = 0 ∧
    representable 32 (10 * 64) ∧
    representable 32 ((sliding_average.add_sample 5 sliding_average.ctor 10).m_mean + 32) :=
  C6_single_sample 5 (by decide) 32 10 (by decide) (by decide)

/-- C7: for every G (in particular G at least 1) and every state reached from a
fresh accumulator by a sequence of `add_sample` calls with arbitrary integer
samples that has `m_num_samples > 1`, `avg_deviation()` equals
`floor ((m_average_deviation + 32) / 64)`, the integer nearest to
`m_average_deviation / 64` with halves rounded up; the running deviation is
never negative. -/
theorem C7_avg_deviation_rounds_half_up (G : Int) (xs : List Int)
    (hcount : 1 < (sliding_average.run G xs).m_num_samples) :
    0 ≤ (sliding_average.run G xs).m_average_deviation ∧
    (sliding_average.run G xs).avg_deviation
        = ((sliding_average.run G xs).m_average_deviation + 32) / 64 ∧
    64 * (sliding_average.run G xs).avg_deviation - 32
        ≤ (sliding_average.run G xs).m_average_deviation ∧
    (sliding_average.run G xs).m_average_deviation
        < 64 * (sliding_average.run G xs).avg_deviation + 32 := by
  have hd := run_deviation_nonneg G xs
  refine ⟨hd, ?_⟩
  unfold sliding_average.avg_deviation
  rw [if_pos hcount]
  exact round_half_up _ (by omega)

theorem C7_avg_deviation_rounds_half_up_witness :
    (sliding_average.run 3 [-5, 4, -7, 1]).m_average_deviation = 365 ∧
    (sliding_average.run 3 [-5, 4, -7, 1]).avg_deviation = 6 ∧
    (0 ≤ (sliding_average.run 3 [-5, 4, -7, 1]).m_average_deviation ∧
     (sliding_average.run 3 [-5, 4, -7, 1]).avg_deviation
        = ((sliding_average.run 3 [-5, 4, -7, 1]).m_average_deviation + 32) / 64 ∧
     64 * (sliding_average.run 3 [-5, 4, -7, 1]).avg_deviation - 32
        ≤ (sliding_average.run 3 [-5, 4, -7, 1]).m_average_deviation ∧
     (sliding_average.run 3 [-5, 4, -7, 1]).m_average_deviation
        < 64 * (sliding_average.run 3 [-5, 4, -7, 1]).avg_deviation + 32) :=
  ⟨by decide, by decide,
   C7_avg_deviation_rounds_half_up 3 [-5, 4, -7, 1] (by decide)⟩

/-- C8 (counterexample): for the signed 8-bit type the sample -128 is
representable and satisfies `s < 127 / 64`, yet `s * 64 = -8192` is outside
`[-128, 127]` and the wrapped product is 0. -/
theorem C8_scaling_counterexample :
    representable 8 (-128) ∧ sample_in_range 8 (-128) ∧
    ¬ representable 8 (-128 * 64) ∧
    scale_sample 8 (-128) = 0 ∧ scale_sample 8 (-128) ≠ -128 * 64 := by
  decide

/-- C8 (amended): for a signed `w`-bit type with maximum M and minimum m, every
sample `s` with `m / 64 ≤ s < M / 64` (divisions truncating), in particular
every non-negative `s < M / 64`, is representable and has `s * 64` inside
`[m, M]`, so the wrapped product equals the mathematical product. -/
theorem C8_scaling_in_range (w : Nat) (s : Int)
    (hlo : 0 ≤ s ∨ Int.tdiv (int_min w) 64 ≤ s) (hhi : sample_in_range w s) :
    representable w s ∧ representable w (s * 64) ∧ scale_sample w s = s * 64 := by
  have hp := two_pow_pos (w - 1)
  have hlo2 : Int.tdiv (int_min w) 64 ≤ s := by
    rcases hlo with h | h
    · have : Int.tdiv (int_min w) 64 ≤ 0 := by
        unfold int_min
        rw [Int.neg_tdiv]
        have := Int.tdiv_nonneg (le_of_lt hp) (by decide : (0 : Int) ≤ 64)
        omega
      omega
    · exact h
  have hrange : representable w s ∧ representable w (s * 64) := by
    unfold sample_in_range int_max at hhi
    unfold int_min at hlo2
    unfold representable int_min int_max
    generalize (2 : Int) ^ (w - 1) = P at hhi hlo2 hp ⊢
    rw [Int.tdiv_eq_ediv (by omega) (by decide)] at hhi
    rw [Int.neg_tdiv, Int.tdiv_eq_ediv (by omega) (by decide)] at hlo2
    omega
  have hw : 1 ≤ w := by
    rcases Nat.eq_zero_or_pos w with h | h
    · subst h
      have h1 : Int.tdiv (int_min 0) 64 = 0 := by decide
      have h2 : Int.tdiv (int_max 0) 64 = 0 := by decide
      unfold sample_in_range at hhi
      omega
    · exact h
  exact ⟨hrange.1, hrange.2, wrap_of_representable w hw _ hrange.2⟩

theorem C8_scaling_in_range_witness :
    sample_in_range 16 (-512) ∧ sample_in_range 16 510 ∧
    (representable 16 (-512) ∧ representable 16 (-512 * 64)
      ∧ scale_sample 16 (-512) = -512 * 64) ∧
    (representable 16 510 ∧ representable 16 (510 * 64)
      ∧ scale_sample 16 510 = 510 * 64) :=
  ⟨by decide, by decide,
   C8_scaling_in_range 16 (-512) (Or.inr (by decide)) (by decide),
   C8_scaling_in_range 16 510 (Or.inl (by decide)) (by decide)⟩

/-- C9 (counterexample): with 32-bit `Int` and `int` and G = 2, the samples
16777216, 16777217, -16777215 all pass the assertion of line 57 and the three
calls are defined, but they leave `m_average_deviation` = 2147483616, and the
sum `m_average_deviation + 32` of `avg_deviation()` overflows.  With 64-bit
`Int`, 32-bit `int` and `inverted_gain` = 2^32, a stream of zero samples wraps
the counter to -1 after 2^32 - 1 calls, and the next call divides by zero. -/
theorem C9_totality_counterexample :
    sample_in_range 32 16777216 ∧ sample_in_range 32 16777217 ∧
    sample_in_range 32 (-16777215) ∧
    sliding_average.add_samples_checked 32 32 2 sliding_average.ctor
        [16777216, 16777217, -16777215]
      = some { m_mean := 48, m_average_deviation := 2147483616, m_num_samples := 2 } ∧
    sliding_average.avg_deviation_checked 32 32
        { m_mean := 48, m_average_deviation := 2147483616, m_num_samples := 2 } = none ∧
    sliding_average.run_m 64 32 4294967296 (List.replicate 4294967295 0)
      = { m_mean := 0, m_average_deviation := 0, m_num_samples := -1 } ∧
    (sliding_average.add_sample_m 64 32 4294967296
        { m_mean := 0, m_average_deviation := 0, m_num_samples := -1 } 0).m_num_samples = 0 ∧
    sliding_average.add_sample_checked 64 32 4294967296
        { m_mean := 0, m_average_deviation := 0, m_num_samples := -1 } 0 = none := by
  refine ⟨by decide, by decide, by decide, ?_, by decide, ?_, by decide, by decide⟩
  · set_option maxRecDepth 20000 in decide
  · rw [run_m_zeros 64 32 (by decide) (by decide) 4294967296 (by decide) 4294967295]
    decide

/-- C9 (amended): for `int` of `c` bits and G with 1 ≤ G ≤ INT_MAX, in every
state reached from a fresh accumulator (any samples) both divisions of
`add_sample` have a divisor of at least 1, and `num_samples()` is
`min (length xs) G`; on a fresh accumulator `mean()` and `avg_deviation()`
return 0.  When moreover `Int` has at least 8 bits and every sample satisfies
`0 ≤ s < max / 64`, no operation overflows: `add_sample`, every sequence of
`add_sample` calls, `mean()` and `avg_deviation()` return a value. -/
theorem C9_operations_total (w c : Nat) (hc : 1 ≤ c) (G : Int) (hG : 1 ≤ G)
    (hGc : G ≤ int_max c) (xs : List Int) (s : Int) :
    1 ≤ (sliding_average.add_sample_m w c G (sliding_average.run_m w c G xs) s).m_num_samples ∧
    ((sliding_average.add_sample_m w c G (sliding_average.run_m w c G xs) s).m_num_samples > 1 →
      1 ≤ wrap c ((sliding_average.add_sample_m w c G
        (sliding_average.run_m w c G xs) s).m_num_samples - 1)) ∧
    (sliding_average.run_m w c G xs).num_samples = min (xs.length : Int) G ∧
    sliding_average.ctor.mean_checked w c = some 0 ∧
    sliding_average.ctor.avg_deviation_checked w c = some 0 ∧
    sliding_average.ctor.num_samples = 0 ∧
    (8 ≤ w → (∀ x ∈ xs, 0 ≤ x ∧ sample_in_range w x) → 0 ≤ s ∧ sample_in_range w s →
      sliding_average.add_sample_checked w c G (sliding_average.run_m w c G xs) s
          = some (sliding_average.add_sample_m w c G (sliding_average.run_m w c G xs) s) ∧
      sliding_average.add_samples_checked w c G sliding_average.ctor xs
          = some (sliding_average.run_m w c G xs) ∧
      (sliding_average.run_m w c G xs).mean_checked w c
          = some ((sliding_average.run_m w c G xs).mean_m w c) ∧
      (sliding_average.run_m w c G xs).avg_deviation_checked w c
          = some ((sliding_average.run_m w c G xs).avg_deviation_m w c)) := by
  have hn := run_m_num_samples w c hc G hG hGc (xs ++ [s])
  rw [run_m_snoc] at hn
  simp only [List.length_append, List.length_singleton, Nat.cast_add, Nat.cast_one] at hn
  have hn0 : (0 : Int) ≤ (xs.length : Int) := Int.ofNat_nonneg _
  refine ⟨by omega, ?_, run_m_num_samples w c hc G hG hGc xs, ?_, ?_, rfl, ?_⟩
  · intro h
    rw [wrap_of_representable c hc _ (representable_of_bounds c _ (by omega))]
    omega
  · unfold sliding_average.mean_checked sliding_average.mean_defined sliding_average.mean_m
    simp [sliding_average.ctor]
  · unfold sliding_average.avg_deviation_checked sliding_average.avg_deviation_defined
      sliding_average.avg_deviation_m
    simp [sliding_average.ctor]
  · intro hw hx hs
    have e0 := run_m_eq w c hw hc G hG hGc xs hx
    have hstep := add_sample_m_in_range w c hw hc G hG hGc xs hx s hs
    have hr := readers_m_in_range w c hw G hG xs hx
    rw [← e0] at hstep hr
    have hall := add_samples_checked_in_range w c hw hc G hG hGc xs []
      (by simpa using hx)
    refine ⟨?_, ?_, ?_, ?_⟩
    · unfold sliding_average.add_sample_checked
      rw [if_pos hstep.2.2]
    · simpa [sliding_average.run_m] using hall
    · unfold sliding_average.mean_checked
      rw [if_pos hr.1.2]
    · unfold sliding_average.avg_deviation_checked
      rw [if_pos hr.2.1.2]

theorem C9_operations_total_witness :
    1 ≤ (sliding_average.add_sample_m 16 32 2
          (sliding_average.run_m 16 32 2 [4, 6, 1]) 7).m_num_samples ∧
    (sliding_average.run_m 16 32 2 [4, 6, 1]).num_samples
        = min (([4, 6, 1] : List Int).length : Int) 2 ∧
    (sliding_average.add_sample_checked 16 32 2 (sliding_average.run_m 16 32 2 [4, 6, 1]) 7
          = some (sliding_average.add_sample_m 16 32 2
              (sliding_average.run_m 16 32 2 [4, 6, 1]) 7) ∧
      sliding_average.add_samples_checked 16 32 2 sliding_average.ctor [4, 6, 1]
          = some (sliding_average.run_m 16 32 2 [4, 6, 1]) ∧
      (sliding_average.run_m 16 32 2 [4, 6, 1]).mean_checked 16 32
          = some ((sliding_average.run_m 16 32 2 [4, 6, 1]).mean_m 16 32) ∧
      (sliding_average.run_m 16 32 2 [4, 6, 1]).avg_deviation_checked 16 32
          = some ((sliding_average.run_m 16 32 2 [4, 6, 1]).avg_deviation_m 16 32)) ∧
    (sliding_average.run_m 16 32 2 [4, 6, 1]).mean_checked 16 32 = some 3 :=
  ⟨(C9_operations_total 16 32 (by decide) 2 (by decide) (by decide) [4, 6, 1] 7).1,
   (C9_operations_total 16 32 (by decide) 2 (by decide) (by decide) [4, 6, 1] 7).2.2.1,
   (C9_operations_total 16 32 (by decide) 2 (by decide) (by decide) [4, 6, 1] 7).2.2.2.2.2.2
     (by decide) (by decide) (by decide),
   by decide⟩

/-- C10: for every `inverted_gain`, a freshly constructed accumulator (no sample
added) has `m_mean = 0`, `m_average_deviation = 0`, `m_num_samples = 0`, and
`num_samples()`, `mean()` and `avg_deviation()` all return 0. -/
theorem C10_cold_start (G : Int) :
    sliding_average.run G [] = sliding_average.ctor ∧
    (sliding_average.run G []).m_mean = 0 ∧
    (sliding_average.run G []).m_average_deviation = 0 ∧
    (sliding_average.run G []).m_num_samples = 0 ∧
    (sliding_average.run G []).num_samples = 0 ∧
    (sliding_average.run G []).mean = 0 ∧
    (sliding_average.run G []).avg_deviation = 0 :=
  ⟨rfl, rfl, rfl, rfl, rfl, rfl, rfl⟩

/-- C11: with `inverted_gain = 5`, adding 10, 20, 30 in order to a fresh
accumulator gives `m_mean` = 640, 960, 1280, `mean()` = 10, 15, 20 and
`num_samples()` = 1, 2, 3 after the first, second and third sample. -/
theorem C11_worked_example :
    (sliding_average.run 5 [10]).m_mean = 640 ∧
    (sliding_average.run 5 [10, 20]).m_mean = 960 ∧
    (sliding_average.run 5 [10, 20, 30]).m_mean = 1280 ∧
    (sliding_average.run 5 [10]).mean = 10 ∧
    (sliding_average.run 5 [10, 20]).mean = 15 ∧
    (sliding_average.run 5 [10, 20, 30]).mean = 20 ∧
    (sliding_average.run 5 [10]).num_samples = 1 ∧
    (sliding_average.run 5 [10, 20]).num_samples = 2 ∧
    (sliding_average.run 5 [10, 20, 30]).num_samples = 3 := by
  decide

/-- C12 (counterexample): with 32-bit `Int` and `int` and G = 1, the sample
-2^31 on a fresh accumulator passes the assertion `s < max / 64`, but the product
`s * 64` overflows and the call returns no updated state; with G = 0 the sample
0 passes the assertion and line 65 divides by zero; and with 64-bit `Int`,
32-bit `int` and G = 2^32, in the state (0, 0, -1), which 2^32 - 1 zero samples
reach, the sample 0 passes the assertion and line 65 divides by zero. -/
theorem C12_assertion_counterexample :
    (-2147483648 : Int) < Int.tdiv (int_max 32) 64 ∧ representable 32 (-2147483648) ∧
    sliding_average.add_sample_debug 32 32 1 sliding_average.ctor (-2147483648)
      = Except.error fault.undefined_behaviour ∧
    (0 : Int) < Int.tdiv (int_max 32) 64 ∧
    sliding_average.add_sample_debug 32 32 0 sliding_average.ctor 0
      = Except.error fault.undefined_behaviour ∧
    (0 : Int) < Int.tdiv (int_max 64) 64 ∧
    sliding_average.run_m 64 32 4294967296 (List.replicate 4294967295 0)
      = { m_mean := 0, m_average_deviation := 0, m_num_samples := -1 } ∧
    sliding_average.add_sample_debug 64 32 4294967296
        { m_mean := 0, m_average_deviation := 0, m_num_samples := -1 } 0
      = Except.error fault.undefined_behaviour := by
  refine ⟨by decide, by decide, ?_, by decide, ?_, by decide, ?_, ?_⟩
  · have h : ¬ sliding_average.add_sample_defined 32 32 1 sliding_average.ctor
        (-2147483648) := by decide
    unfold sliding_average.add_sample_debug sliding_average.add_sample_checked TORRENT_ASSERT
    rw [if_neg h, if_pos (by decide)]
  · have h : ¬ sliding_average.add_sample_defined 32 32 0 sliding_average.ctor 0 := by decide
    unfold sliding_average.add_sample_debug sliding_average.add_sample_checked TORRENT_ASSERT
    rw [if_neg h, if_pos (by decide)]
  · rw [run_m_zeros 64 32 (by decide) (by decide) 4294967296 (by decide) 4294967295]
    decide
  · have h : ¬ sliding_average.add_sample_defined 64 32 4294967296
        { m_mean := 0, m_average_deviation := 0, m_num_samples := -1 } 0 := by decide
    unfold sliding_average.add_sample_debug sliding_average.add_sample_checked TORRENT_ASSERT
    rw [if_neg h, if_pos (by decide)]

/-- C12 (amended): for `Int` of `w` bits with maximum M, the debug build of
`add_sample(s)` returns the assertion failure if and only if `s ≥ M / 64`
(division truncating).  When `s < M / 64`, G satisfies 1 ≤ G ≤ INT_MAX and every
value the call computes fits the type `Int`, it returns the updated state,
which is the one computed over the integers. -/
theorem C12_assertion_contract (w c : Nat) (G : Int) (st : sliding_average) (s : Int) :
    (sliding_average.add_sample_debug w c G st s = Except.error fault.assertion_failed
      ↔ s ≥ Int.tdiv (int_max w) 64) ∧
    (1 ≤ w → 1 ≤ c → 1 ≤ G → G ≤ int_max c →
      0 ≤ st.m_num_samples ∧ st.m_num_samples ≤ int_max c →
      (∀ v ∈ sliding_average.add_sample_values G st s, representable w v) →
      s < Int.tdiv (int_max w) 64 →
      sliding_average.add_sample_debug w c G st s
        = Except.ok (sliding_average.add_sample G st s)) := by
  constructor
  · unfold sliding_average.add_sample_debug TORRENT_ASSERT
    by_cases h : s < Int.tdiv (int_max w) 64
    · simp only [h, decide_True, if_true]
      constructor
      · intro h1
        split at h1
        · exact absurd h1 (by simp)
        · exact absurd h1 (by simp)
      · intro h1; omega
    · simp only [h, decide_False]
      constructor
      · intro _; omega
      · intro _; rfl
  · intro hw hc hG hGc hcnt hv hs
    have h := add_sample_m_eq w c hw hc G hG st s hcnt (fun _ => by omega) hv
    unfold sliding_average.add_sample_debug sliding_average.add_sample_checked TORRENT_ASSERT
    rw [if_pos h.2, if_pos (by simpa using hs), h.1]

theorem C12_assertion_contract_witness :
    (sliding_average.add_sample_debug 16 32 5 (sliding_average.run 5 [10, 20]) 511
        = Except.error fault.assertion_failed
      ↔ (511 : Int) ≥ Int.tdiv (int_max 16) 64) ∧
    sliding_average.add_sample_debug 16 32 5 (sliding_average.run 5 [10, 20]) 30
      = Except.ok (sliding_average.add_sample 5 (sliding_average.run 5 [10, 20]) 30) ∧
    sliding_average.add_sample 5 (sliding_average.run 5 [10, 20]) 30
      = { m_mean := 1280, m_average_deviation := 800, m_num_samples := 3 } :=
  ⟨(C12_assertion_contract 16 32 5 (sliding_average.run 5 [10, 20]) 511).1,
   (C12_assertion_contract 16 32 5 (sliding_average.run 5 [10, 20]) 30).2 (by decide)
     (by decide) (by decide) (by decide) (by decide) (by decide) (by decide),
   by decide⟩

/-- C13 (counterexample): with `Int` of 64 bits, `int` of 32 bits and
`inverted_gain` = 2^32, the samples 0, 2 and then 1 repeated bring the state to
(64, 12, 16) after 16 calls and leave both running values fixed; after
2^31 - 1 calls the counter is INT_MAX and the next call overflows it, so the
state is (64, 12, -2^31): `m_num_samples ≤ 1` with `m_average_deviation` not
0. -/
theorem C13_counter_overflow_counterexample :
    (1 : Int) ≤ 4294967296 ∧
    sliding_average.run_m 64 32 4294967296
        (([0, 2] ++ List.replicate 14 1) ++ List.replicate 2147483631 1 ++ [1])
      = { m_mean := 64, m_average_deviation := 12, m_num_samples := -2147483648 } ∧
    (-2147483648 : Int) ≤ 1 ∧ (12 : Int) ≠ 0 := by
  refine ⟨by decide, ?_, by decide, by decide⟩
  have h16 : sliding_average.run_m 64 32 4294967296 ([0, 2] ++ List.replicate 14 1)
      = { m_mean := 64, m_average_deviation := 12, m_num_samples := 16 } := by
    set_option maxRecDepth 20000 in decide
  rw [run_m_snoc, run_m_append, h16,
    foldl_add_sample_m_fixed 64 32 (by decide) (by decide) 4294967296 12 (by decide)
      2147483631 16 (by decide) (by decide) (by decide)]
  decide

/-- C13 (amended): for `int` of `c` bits and G with 1 ≤ G ≤ INT_MAX, every state
reached from a fresh accumulator by `add_sample` calls (any samples, any width
of `Int`) with `m_num_samples ≤ 1` has `m_average_deviation = 0`; in particular
the first `add_sample` leaves it at 0, and with G = 1 it is 0 after any sequence
of samples. -/
theorem C13_deviation_zero_before_second_sample (w c : Nat) (hc : 1 ≤ c) (G : Int)
    (hG : 1 ≤ G) (hGc : G ≤ int_max c) (xs : List Int) (s : Int) :
    ((sliding_average.run_m w c G xs).m_num_samples ≤ 1 →
      (sliding_average.run_m w c G xs).m_average_deviation = 0) ∧
    (sliding_average.add_sample_m w c G sliding_average.ctor s).m_num_samples = 1 ∧
    (sliding_average.add_sample_m w c G sliding_average.ctor s).m_average_deviation = 0 ∧
    (G = 1 → (sliding_average.run_m w c G xs).m_average_deviation = 0) := by
  have hinv : ∀ ys : List Int, (sliding_average.run_m w c G ys).m_num_samples ≤ 1 →
      (sliding_average.run_m w c G ys).m_average_deviation = 0 := by
    intro ys
    induction ys using List.reverseRecOn with
    | nil => intro _; rfl
    | append_singleton ys y ih =>
      intro h
      have hn := run_m_num_samples w c hc G hG hGc (ys ++ [y])
      have hn0 := run_m_num_samples w c hc G hG hGc ys
      simp only [List.length_append, List.length_singleton, Nat.cast_add, Nat.cast_one] at hn
      rw [run_m_snoc] at h ⊢
      rw [add_sample_m_deviation_of_le w c G _ y h]
      apply ih
      rw [← run_m_snoc] at h
      omega
  have hone : sliding_average.add_sample_m w c G sliding_average.ctor s
      = sliding_average.run_m w c G [s] := rfl
  have h1 := run_m_num_samples w c hc G hG hGc [s]
  simp only [List.length_singleton, Nat.cast_one] at h1
  refine ⟨hinv xs, ?_, ?_, ?_⟩
  · rw [hone, h1]; omega
  · rw [hone]; exact hinv [s] (by rw [h1]; omega)
  · intro hG1
    apply hinv
    rw [run_m_num_samples w c hc G hG hGc, hG1]
    omega

theorem C13_deviation_zero_before_second_sample_witness :
    ((sliding_average.run_m 16 32 1 [4, -600, 2]).m_num_samples ≤ 1 →
      (sliding_average.run_m 16 32 1 [4, -600, 2]).m_average_deviation = 0) ∧
    (sliding_average.add_sample_m 16 32 1 sliding_average.ctor 6).m_num_samples = 1 ∧
    (sliding_average.add_sample_m 16 32 1 sliding_average.ctor 6).m_average_deviation = 0 ∧
    ((1 : Int) = 1 → (sliding_average.run_m 16 32 1 [4, -600, 2]).m_average_deviation = 0) :=
  C13_deviation_zero_before_second_sample 16 32 (by decide) 1 (by decide) (by decide)
    [4, -600, 2] 6

/-- C14: for every G at least 1 and every non-empty sequence `xs` of integer
samples added to a fresh accumulator (mathematical integers, division
truncating toward zero), `64 * min xs ≤ m_mean ≤ 64 * max xs` at the end and
after every call along the way; a constant stream of value `c` keeps
`m_mean = 64 * c` exactly. -/
theorem C14_mean_within_data (G : Int) (hG : 1 ≤ G) (xs : List Int) (hne : xs ≠ []) :
    (64 * samples_min xs ≤ (sliding_average.run G xs).m_mean ∧
      (sliding_average.run G xs).m_mean ≤ 64 * samples_max xs) ∧
    (∀ k : Nat, 1 ≤ k → k ≤ xs.length →
      64 * samples_min xs ≤ (sliding_average.run G (xs.take k)).m_mean ∧
      (sliding_average.run G (xs.take k)).m_mean ≤ 64 * samples_max xs) ∧
    (∀ c : Int, (∀ x ∈ xs, x = c) → (sliding_average.run G xs).m_mean = 64 * c) := by
  have hmm := samples_min_le_max xs
  refine ⟨?_, ?_, ?_⟩
  · exact (run_within G hG _ _ hmm.1 xs hmm.2).2.1 (run_num_samples_pos G hG xs hne)
  · intro k hk1 hk2
    have hne2 : xs.take k ≠ [] := by
      intro h0
      have hl := congrArg List.length h0
      rw [List.length_take] at hl
      simp only [List.length_nil] at hl
      omega
    exact (run_within G hG _ _ hmm.1 (xs.take k)
      (fun x hx => hmm.2 x (List.mem_of_mem_take hx))).2.1
      (run_num_samples_pos G hG _ hne2)
  · intro c hc
    have hw := (run_within G hG c c (le_refl c) xs
      (fun x hx => by rw [hc x hx]; exact ⟨le_refl c, le_refl c⟩)).2.1
      (run_num_samples_pos G hG xs hne)
    omega

theorem C14_mean_within_data_witness :
    samples_min [7, -3, 12, 5] = -3 ∧ samples_max [7, -3, 12, 5] = 12 ∧
    (sliding_average.run 3 [7, -3, 12, 5]).m_mean = 334 ∧
    (sliding_average.run 3 [4, 4, 4, 4]).m_mean = 64 * 4 ∧
    ((64 * samples_min [7, -3, 12, 5] ≤ (sliding_average.run 3 [7, -3, 12, 5]).m_mean ∧
      (sliding_average.run 3 [7, -3, 12, 5]).m_mean ≤ 64 * samples_max [7, -3, 12, 5]) ∧
    (∀ k : Nat, 1 ≤ k → k ≤ ([7, -3, 12, 5] : List Int).length →
      64 * samples_min [7, -3, 12, 5]
        ≤ (sliding_average.run 3 (([7, -3, 12, 5] : List Int).take k)).m_mean ∧
      (sliding_average.run 3 (([7, -3, 12, 5] : List Int).take k)).m_mean
        ≤ 64 * samples_max [7, -3, 12, 5]) ∧
    (∀ c : Int, (∀ x ∈ ([7, -3, 12, 5] : List Int), x = c) →
      (sliding_average.run 3 [7, -3, 12, 5]).m_mean = 64 * c)) :=
  ⟨by decide, by decide, by decide, by decide,
   C14_mean_within_data 3 (by decide) [7, -3, 12, 5] (by decide)⟩

/-- C15: for every G at least 1 and every sequence `xs` of integer samples added
to a fresh accumulator (mathematical integers),
`0 ≤ m_average_deviation ≤ 64 * (max xs - min xs)` at the end and after every
call along the way, with `m_average_deviation = 0` for the empty sequence; a
constant stream keeps `m_average_deviation = 0` and `avg_deviation() = 0`. -/
theorem C15_deviation_within_spread (G : Int) (hG : 1 ≤ G) (xs : List Int) :
    (0 ≤ (sliding_average.run G xs).m_average_deviation ∧
      (sliding_average.run G xs).m_average_deviation
        ≤ 64 * (samples_max xs - samples_min xs)) ∧
    (∀ k : Nat,
      0 ≤ (sliding_average.run G (xs.take k)).m_average_deviation ∧
      (sliding_average.run G (xs.take k)).m_average_deviation
        ≤ 64 * (samples_max xs - samples_min xs)) ∧
    (sliding_average.run G []).m_average_deviation = 0 ∧
    (∀ c : Int, (∀ x ∈ xs, x = c) →
      (sliding_average.run G xs).m_average_deviation = 0 ∧
      (sliding_average.run G xs).avg_deviation = 0) := by
  have hmm := samples_min_le_max xs
  refine ⟨?_, ?_, rfl, ?_⟩
  · exact (run_within G hG _ _ hmm.1 xs hmm.2).2.2
  · intro k
    exact (run_within G hG _ _ hmm.1 (xs.take k)
      (fun x hx => hmm.2 x (List.mem_of_mem_take hx))).2.2
  · intro c hc
    have hw := (run_within G hG c c (le_refl c) xs
      (fun x hx => by rw [hc x hx]; exact ⟨le_refl c, le_refl c⟩)).2.2
    have h0 : (sliding_average.run G xs).m_average_deviation = 0 := by omega
    refine ⟨h0, ?_⟩
    unfold sliding_average.avg_deviation
    rw [h0]
    split
    · decide
    · rfl

theorem C15_deviation_within_spread_witness :
    (sliding_average.run 3 [7, -3, 12, 5]).m_average_deviation = 331 ∧
    (sliding_average.run 3 [4, 4, 4, 4]).avg_deviation = 0 ∧
    ((0 ≤ (sliding_average.run 3 [7, -3, 12, 5]).m_average_deviation ∧
      (sliding_average.run 3 [7, -3, 12, 5]).m_average_deviation
        ≤ 64 * (samples_max [7, -3, 12, 5] - samples_min [7, -3, 12, 5])) ∧
    (∀ k : Nat,
      0 ≤ (sliding_average.run 3 (([7, -3, 12, 5] : List Int).take k)).m_average_deviation ∧
      (sliding_average.run 3 (([7, -3, 12, 5] : List Int).take k)).m_average_deviation
        ≤ 64 * (samples_max [7, -3, 12, 5] - samples_min [7, -3, 12, 5])) ∧
    (sliding_average.run 3 []).m_average_deviation = 0 ∧
    (∀ c : Int, (∀ x ∈ ([7, -3, 12, 5] : List Int), x = c) →
      (sliding_average.run 3 [7, -3, 12, 5]).m_average_deviation = 0 ∧
      (sliding_average.run 3 [7, -3, 12, 5]).avg_deviation = 0)) :=
  ⟨by decide, by decide, C15_deviation_within_spread 3 (by decide) [7, -3, 12, 5]⟩

/-- C16: for every G at least 1 and every sequence `xs` of n integer samples
with n ≤ G, in particular 1 ≤ n ≤ G, added to a fresh accumulator (mathematical
integers, division truncating toward zero),
`|n * m_mean - 64 * sum xs| ≤ n * (n - 1) / 2`: the mean differs from the exact
scaled cumulative average by at most (n - 1) / 2 fixed point units. -/
theorem C16_ramp_up_truncation_error (G : Int) (hG : 1 ≤ G) (xs : List Int)
    (hlen : (xs.length : Int) ≤ G) :
    |(xs.length : Int) * (sliding_average.run G xs).m_mean - 64 * xs.sum|
        ≤ (xs.length : Int) * ((xs.length : Int) - 1) / 2 ∧
    2 * |(xs.length : Int) * (sliding_average.run G xs).m_mean - 64 * xs.sum|
        ≤ (xs.length : Int) * ((xs.length : Int) - 1) := by
  have h := run_ramp_error G hG xs hlen
  refine ⟨?_, h⟩
  rw [Int.le_ediv_iff_mul_le (by decide)]
  omega

theorem C16_ramp_up_truncation_error_witness :
    (sliding_average.run 4 [0, 0, 1, 1]).m_mean = 31 ∧
    (([0, 0, 1, 1] : List Int).length : Int) * (sliding_average.run 4 [0, 0, 1, 1]).m_mean
        - 64 * ([0, 0, 1, 1] : List Int).sum = -4 ∧
    (|(([0, 0, 1, 1] : List Int).length : Int) * (sliding_average.run 4 [0, 0, 1, 1]).m_mean
          - 64 * ([0, 0, 1, 1] : List Int).sum|
        ≤ (([0, 0, 1, 1] : List Int).length : Int)
            * ((([0, 0, 1, 1] : List Int).length : Int) - 1) / 2 ∧
     2 * |(([0, 0, 1, 1] : List Int).length : Int) * (sliding_average.run 4 [0, 0, 1, 1]).m_mean
          - 64 * ([0, 0, 1, 1] : List Int).sum|
        ≤ (([0, 0, 1, 1] : List Int).length : Int)
            * ((([0, 0, 1, 1] : List Int).length : Int) - 1)) :=
  ⟨by decide, by decide,
   C16_ramp_up_truncation_error 4 (by decide) [0, 0, 1, 1] (by decide)⟩

/-- C17 (counterexample): with `Int` of 16 bits, `int` of 32 bits and G = 2, the
samples 510 and -512 both pass the assertion of line 57 and both scaled samples
fit, but `std::abs(m_mean - s)` = 65408 is stored in the 16-bit `deviation` as
-128: `m_average_deviation` is -128 and `avg_deviation()` is -1, where the
claim gives 65408 and 1022. -/
theorem C17_first_deviation_counterexample :
    sample_in_range 16 510 ∧ sample_in_range 16 (-512) ∧
    representable 16 (510 * 64) ∧ representable 16 (-512 * 64) ∧
    sliding_average.add_sample_m 16 32 2
        (sliding_average.add_sample_m 16 32 2 sliding_average.ctor 510) (-512)
        = { m_mean := -64, m_average_deviation := -128, m_num_samples := 2 } ∧
    (sliding_average.add_sample_m 16 32 2
        (sliding_average.add_sample_m 16 32 2 sliding_average.ctor 510)
        (-512)).avg_deviation_m 16 32 = -1 ∧
    (sliding_average.add_sample 2
        (sliding_average.add_sample 2 sliding_average.ctor 510) (-512)).m_average_deviation
        = 65408 ∧
    (sliding_average.add_sample 2
        (sliding_average.add_sample 2 sliding_average.ctor 510) (-512)).avg_deviation
        = 1022 := by
  decide

/-- C17 (amended): for `Int` of `w` bits (w at least 7), `int` of `c` bits, G
with 2 ≤ G ≤ INT_MAX and integers a, b such that `64 * a`, `64 * b` and
`64 * |a - b|` fit the type `Int`, after `add_sample(a)` then `add_sample(b)` on
a fresh accumulator `m_average_deviation = 64 * |a - b|`,
`avg_deviation() = |a - b|` and `m_mean = 32 * (a + b)`: the first deviation
sample is measured against the mean before the update, which is `64 * a`. -/
theorem C17_first_deviation_sample (w c : Nat) (hw : 7 ≤ w) (hc : 1 ≤ c) (G : Int)
    (hG : 2 ≤ G) (hGc : G ≤ int_max c) (a b : Int) (ha : representable w (a * 64))
    (hb : representable w (b * 64)) (hab : 64 * |a - b| ≤ int_max w) :
    (sliding_average.add_sample_m w c G
        (sliding_average.add_sample_m w c G sliding_average.ctor a) b).m_average_deviation
        = 64 * |a - b| ∧
    (sliding_average.add_sample_m w c G
        (sliding_average.add_sample_m w c G sliding_average.ctor a) b).avg_deviation_m w c
        = |a - b| ∧
    (sliding_average.add_sample_m w c G
        (sliding_average.add_sample_m w c G sliding_average.ctor a) b).m_mean
        = 32 * (a + b) ∧
    (sliding_average.add_sample_m w c G sliding_average.ctor a).m_mean = 64 * a ∧
    sliding_average.add_sample_defined w c G sliding_average.ctor a ∧
    sliding_average.add_sample_defined w c G
        (sliding_average.add_sample_m w c G sliding_average.ctor a) b ∧
    (sliding_average.add_sample_m w c G
        (sliding_average.add_sample_m w c G sliding_average.ctor a) b).avg_deviation_defined
        w c := by
  have h2 : sliding_average.add_sample_m w c G
      (sliding_average.add_sample_m w c G sliding_average.ctor a) b
      = sliding_average.run_m w c G [a, b] := rfl
  have h1 : sliding_average.add_sample_m w c G sliding_average.ctor a
      = sliding_average.run_m w c G [a] := rfl
  have hs := run_m_single w c (by omega) hc G (by omega) hGc a ha
  have hp := run_m_pair w c (by omega) hc G hG hGc a b ha hb hab
  have hr := avg_deviation_m_of_scaled w c hw (32 * (a + b)) |a - b| (abs_nonneg _) hab
  refine ⟨?_, ?_, ?_, ?_, hs.2, ?_, ?_⟩
  · rw [h2, hp.1]
  · rw [h2, hp.1]; exact hr.1
  · rw [h2, hp.1]
  · rw [h1, hs.1]
  · rw [h1]; exact hp.2
  · rw [h2, hp.1]; exact hr.2

theorem C17_first_deviation_sample_witness :
    (sliding_average.add_sample_m 16 32 2
        (sliding_average.add_sample_m 16 32 2 sliding_average.ctor (-3)) 8).m_average_deviation
        = 64 * |(-3 : Int) - 8| ∧
    (sliding_average.add_sample_m 16 32 2
        (sliding_average.add_sample_m 16 32 2 sliding_average.ctor (-3)) 8).avg_deviation_m
        16 32 = |(-3 : Int) - 8| ∧
    (sliding_average.add_sample_m 16 32 2
        (sliding_average.add_sample_m 16 32 2 sliding_average.ctor (-3)) 8).m_mean
        = 32 * (-3 + 8) ∧
    (sliding_average.add_sample_m 16 32 2 sliding_average.ctor (-3)).m_mean = 64 * (-3) ∧
    sliding_average.add_sample_defined 16 32 2 sliding_average.ctor (-3) ∧
    sliding_average.add_sample_defined 16 32 2
        (sliding_average.add_sample_m 16 32 2 sliding_average.ctor (-3)) 8 ∧
    (sliding_average.add_sample_m 16 32 2
        (sliding_average.add_sample_m 16 32 2 sliding_average.ctor (-3)) 8).avg_deviation_defined
        16 32 :=
  C17_first_deviation_sample 16 32 (by decide) (by decide) 2 (by decide) (by decide) (-3) 8
    (by decide) (by decide) (by rw [show |(-3 : Int) - 8| = 11 from rfl]; decide)

/-- C18 (counterexample): with 64-bit `Int`, 32-bit `int` and `inverted_gain` =
2^32 (which is at most M), a stream of zero samples, each satisfying
`0 ≤ s < M / 64`, reaches the counter INT_MAX after 2^31 - 1 calls; the next
call overflows the increment of the counter, and the machine state has the
counter -2^31 where the computation over the integers has 2^31. -/
theorem C18_counter_overflow_counterexample :
    8 ≤ 64 ∧ (1 : Int) ≤ 4294967296 ∧ (4294967296 : Int) ≤ int_max 64 ∧
    (∀ x ∈ List.replicate 2147483648 (0 : Int), 0 ≤ x ∧ sample_in_range 64 x) ∧
    ¬ sliding_average.add_sample_defined 64 32 4294967296
        (sliding_average.run_m 64 32 4294967296 (List.replicate 2147483647 0)) 0 ∧
    (sliding_average.run_m 64 32 4294967296 (List.replicate 2147483648 0)).m_num_samples
        = -2147483648 ∧
    (sliding_average.run 4294967296 (List.replicate 2147483648 0)).m_num_samples
        = 2147483648 := by
  refine ⟨by decide, by decide, by decide, ?_, ?_, ?_, ?_⟩
  · intro x hx
    rw [List.eq_of_mem_replicate hx]
    decide
  · rw [run_m_zeros 64 32 (by decide) (by decide) 4294967296 (by decide) 2147483647]
    decide
  · rw [run_m_zeros 64 32 (by decide) (by decide) 4294967296 (by decide) 2147483648]
    decide
  · rw [run_num_samples 4294967296 (by decide), List.length_replicate]
    decide

/-- C18 (amended): for `Int` of `w` bits with maximum M (w at least 8), `int` of
`c` bits, every G with 1 ≤ G ≤ M and G ≤ INT_MAX, and every sequence of samples
each satisfying `0 ≤ s < M / 64`, every value that `add_sample` computes along
the run (`s * 64`, `m_mean - s`, `s - m_mean`, the quotients, the updated
`m_mean`, `deviation - m_average_deviation`, the updated
`m_average_deviation`) and the values `field + 32` of `mean()` and
`avg_deviation()` lie in `[-2^(w-1), M]`, and the counter fits both `int` and
`Int`; so no operation overflows and the machine computation equals the
computation over the mathematical integers, call by call and for the two
readers. -/
theorem C18_no_overflow (w c : Nat) (hw : 8 ≤ w) (hc : 1 ≤ c) (G : Int) (hG : 1 ≤ G)
    (hGM : G ≤ int_max w) (hGc : G ≤ int_max c) (xs : List Int)
    (hx : ∀ x ∈ xs, 0 ≤ x ∧ sample_in_range w x) (s : Int)
    (hs : 0 ≤ s ∧ sample_in_range w s) :
    (∀ v ∈ sliding_average.add_sample_values G (sliding_average.run G xs) s,
      representable w v) ∧
    representable w ((sliding_average.run G xs).m_mean + 32) ∧
    representable w ((sliding_average.run G xs).m_average_deviation + 32) ∧
    representable c (sliding_average.run G xs).m_num_samples ∧
    representable w (sliding_average.run G xs).m_num_samples ∧
    sliding_average.run_m w c G xs = sliding_average.run G xs ∧
    sliding_average.add_sample_defined w c G (sliding_average.run_m w c G xs) s ∧
    sliding_average.add_sample_m w c G (sliding_average.run_m w c G xs) s
        = sliding_average.add_sample G (sliding_average.run G xs) s ∧
    sliding_average.run_m w c G (xs ++ [s]) = sliding_average.run G (xs ++ [s]) ∧
    ((sliding_average.run_m w c G xs).mean_defined w c ∧
      (sliding_average.run_m w c G xs).mean_m w c = (sliding_average.run G xs).mean) ∧
    ((sliding_average.run_m w c G xs).avg_deviation_defined w c ∧
      (sliding_average.run_m w c G xs).avg_deviation_m w c
        = (sliding_average.run G xs).avg_deviation) := by
  have hsb := scaled_bound w hw
  have hb := run_bounds G hG _ hsb.1 xs (fun x h => sample_bound w x (hx x h))
  have hstep := add_sample_m_in_range w c hw hc G hG hGc xs hx s hs
  have hrun := run_m_eq w c hw hc G hG hGc xs hx
  have hr := readers_m_in_range w c hw G hG xs hx
  rw [hrun]
  refine ⟨hstep.1, hr.2.2.1, hr.2.2.2, representable_of_bounds c _ ⟨hb.1.1, by omega⟩,
    representable_of_bounds w _ ⟨hb.1.1, by omega⟩, rfl, hstep.2.2, hstep.2.1, ?_,
    ⟨hr.1.2, hr.1.1⟩, ⟨hr.2.1.2, hr.2.1.1⟩⟩
  rw [run_m_snoc, hrun, run_snoc]
  exact hstep.2.1

theorem C18_no_overflow_witness :
    sliding_average.add_sample_values 3 (sliding_average.run 3 [500, 0, 510]) 7
        = [448, 21098, 21098, -21098, -7032, 14514, -3222, -1611, 22709] ∧
    ((∀ v ∈ sliding_average.add_sample_values 3 (sliding_average.run 3 [500, 0, 510]) 7,
      representable 16 v) ∧
    representable 16 ((sliding_average.run 3 [500, 0, 510]).m_mean + 32) ∧
    representable 16 ((sliding_average.run 3 [500, 0, 510]).m_average_deviation + 32) ∧
    representable 32 (sliding_average.run 3 [500, 0, 510]).m_num_samples ∧
    representable 16 (sliding_average.run 3 [500, 0, 510]).m_num_samples ∧
    sliding_average.run_m 16 32 3 [500, 0, 510] = sliding_average.run 3 [500, 0, 510] ∧
    sliding_average.add_sample_defined 16 32 3
        (sliding_average.run_m 16 32 3 [500, 0, 510]) 7 ∧
    sliding_average.add_sample_m 16 32 3 (sliding_average.run_m 16 32 3 [500, 0, 510]) 7
        = sliding_average.add_sample 3 (sliding_average.run 3 [500, 0, 510]) 7 ∧
    sliding_average.run_m 16 32 3 ([500, 0, 510] ++ [7])
        = sliding_average.run 3 ([500, 0, 510] ++ [7]) ∧
    ((sliding_average.run_m 16 32 3 [500, 0, 510]).mean_defined 16 32 ∧
      (sliding_average.run_m 16 32 3 [500, 0, 510]).mean_m 16 32
        = (sliding_average.run 3 [500, 0, 510]).mean) ∧
    ((sliding_average.run_m 16 32 3 [500, 0, 510]).avg_deviation_defined 16 32 ∧
      (sliding_average.run_m 16 32 3 [500, 0, 510]).avg_deviation_m 16 32
        = (sliding_average.run 3 [500, 0, 510]).avg_deviation)) :=
  ⟨by decide,
   C18_no_overflow 16 32 (by decide) (by decide) 3 (by decide) (by decide) (by decide)
     [500, 0, 510] (by decide) 7 (by decide)⟩


end libtorrent
